import Mathlib

/-!
# Rain Director serial decoder: a shallow embedding of `rain_director.cpp`

The component reads a UART byte stream, reassembles `<`-prefixed hex frames and
inline JSON records in `buffer_`, and forwards decoded values to six optional
sensors, each behind a "changed since the last publish" filter.

Modelling conventions

* A `std::string` of bytes is a `List Char`; the text values handed to the text
  sensors (all of them C string literals in the source) are `String`s.
* `int` values are `Int`. The only arithmetic is done by `strtol` / `atoi`,
  whose saturation at `LONG_MAX` / `LONG_MIN` (32-bit `long`, the ESP targets of
  the component) is kept.
* The object state is the structure `Component`; every member function takes
  the state and returns the new state together with the list of
  `publish_state` calls it made, in order.
* The six sensor pointers are configuration: `Sinks` records which of them are
  non-null. Logging macros have no effect on state or publishes and are left out.
* A publish call is recorded with the `int` (or text) argument written at the call
  site; the conversion to `float` made by `Sensor::publish_state` is not modelled.
-/

namespace RainDirector

/-! ## `std::string` primitives -/

/-- `s.substr(pos, len)` for `pos ≤ s.size()` (the source never calls it otherwise). -/
def substr (s : List Char) (pos len : Nat) : List Char :=
  (s.drop pos).take len

/-- `s.find(needle, pos)`: the least index `i ≥ pos` at which `needle` occurs in `s`,
`none` standing for `std::string::npos`. -/
def find (s needle : List Char) (pos : Nat) : Option Nat :=
  (List.range (s.length + 1)).find? (fun i => decide (pos ≤ i) && needle.isPrefixOf (s.drop i))

/-! ## C library: `strtol` and `atoi` -/

/-- `LONG_MAX` for a 32-bit `long`. -/
def LONG_MAX : Int := 2147483647

/-- `LONG_MIN` for a 32-bit `long`. -/
def LONG_MIN : Int := -2147483648

/-- `isspace` in the C locale: space, `\t`, `\n`, `\v`, `\f`, `\r`. -/
def isspace (c : Char) : Bool :=
  c.toNat = 32 || (9 ≤ c.toNat && c.toNat ≤ 13)

/-- Value of a character as a digit (bases up to 36), as `strtol` reads it. -/
def digitVal (c : Char) : Option Nat :=
  if 48 ≤ c.toNat ∧ c.toNat ≤ 57 then some (c.toNat - 48)
  else if 97 ≤ c.toNat ∧ c.toNat ≤ 122 then some (c.toNat - 97 + 10)
  else if 65 ≤ c.toNat ∧ c.toNat ≤ 90 then some (c.toNat - 65 + 10)
  else none

/-- Accumulate the leading run of base-`base` digits of `s`, starting from `acc`. -/
def accumDigits (base : Nat) : List Char → Nat → Nat
  | [], acc => acc
  | c :: t, acc =>
    match digitVal c with
    | some d => if d < base then accumDigits base t (acc * base + d) else acc
    | none => acc

/-- `strtol(s, nullptr, base)` for `base` 10 or 16: skip white space, read an optional
sign, for base 16 an optional `0x` / `0X`, then the longest run of digits; the result
saturates at `LONG_MIN` / `LONG_MAX`. A NUL byte is neither white space, sign nor digit,
so the scan stops at it exactly as it does at the end of the C string. -/
def strtol (s : List Char) (base : Nat) : Int :=
  let s1 := s.dropWhile isspace
  let neg : Bool := s1.head? = some '-'
  let s2 := if s1.head? = some '-' ∨ s1.head? = some '+' then s1.drop 1 else s1
  let s3 :=
    if base = 16 ∧ s2.head? = some '0' ∧ ((s2.drop 1).head? = some 'x' ∨ (s2.drop 1).head? = some 'X')
    then s2.drop 2 else s2
  let acc : Int := (accumDigits base s3 0 : Nat)
  if neg then max LONG_MIN (-acc) else min LONG_MAX acc

/-- `atoi(s)`, which is `(int) strtol(s, nullptr, 10)`. -/
def atoi (s : List Char) : Int :=
  strtol s 10

/-! ## Mode table -/

/-- One row of `MODE_MAPPINGS`. -/
structure ModeMapping where
  code : Nat
  mode : String
  status : String
  source : String
  is_refresh : Bool
  deriving DecidableEq, Repr

/-- The table `MODE_MAPPINGS` of the source, in its order. -/
def MODE_MAPPINGS : List ModeMapping :=
  [ ⟨0x00, "Normal",  "Filling",  "Rainwater", false⟩,
    ⟨0x01, "Normal",  "Idle",     "Rainwater", false⟩,
    ⟨0x04, "Normal",  "Idle",     "Mains",     false⟩,
    ⟨0x08, "Holiday", "Idle",     "Mains",     false⟩,
    ⟨0x0C, "Holiday", "Filling",  "Mains",     false⟩,
    ⟨0x10, "Refresh", "Draining", "Rainwater", true⟩ ]

/-- The linear search of `process_hex_code_`: the first row of the table whose code
equals `mode_byte` (`break` at the first match), `none` for `nullptr`. -/
def find_mapping : List ModeMapping → Int → Option ModeMapping
  | [], _ => none
  | m :: rest, mode_byte => if (m.code : Int) = mode_byte then some m else find_mapping rest mode_byte

/-! ## Component state and publish calls -/

/-- Which of the six sensor pointers are non-null. -/
structure Sinks where
  tank_level_sensor_ : Bool
  mode_code_sensor_ : Bool
  state_code_sensor_ : Bool
  mode_text_sensor_ : Bool
  status_text_sensor_ : Bool
  source_text_sensor_ : Bool
  deriving DecidableEq, Repr

/-- Every sensor configured. -/
def allSinks : Sinks := ⟨true, true, true, true, true, true⟩

/-- A `publish_state` call: the sensor it is made on and its argument. -/
inductive Pub where
  | tank_level (v : Int)
  | mode_code (v : Int)
  | state_code (v : Int)
  | mode_text (s : String)
  | status_text (s : String)
  | source_text (s : String)
  deriving DecidableEq, Repr

/-- The mutable members of `RainDirectorComponent`. -/
structure Component where
  buffer_ : List Char
  last_top_ : Int
  last_mode_ : Int
  last_state_ : Int
  last_status_ : String
  last_source_ : String
  last_mode_str_ : String
  in_refresh_ : Bool
  deriving DecidableEq, Repr

/-- The component as constructed, with the member initialisers of the header. -/
def Component.fresh : Component :=
  { buffer_ := [], last_top_ := -1, last_mode_ := -1, last_state_ := -1,
    last_status_ := "", last_source_ := "", last_mode_str_ := "", in_refresh_ := false }

/-- The guarded call `if (sensor != nullptr) sensor->publish_state(v)`. -/
def publish_state (sensor : Bool) (p : Pub) : List Pub :=
  if sensor then [p] else []

/-! ## Decoders -/

/-- `hex_to_int_`: `(int) strtol(hex.c_str(), nullptr, 16)`. -/
def hex_to_int_ (hex : List Char) : Int :=
  strtol hex 16

/-- `extract_json_int_`. -/
def extract_json_int_ (json : List Char) (key : List Char) : Int :=
  let search := '"' :: key ++ ['"', ':', '"']
  match find json search 0 with
  | none => -1
  | some start =>
    let start := start + search.length
    match find json ['"'] start with
    | none => -1
    | some end_ => atoi (substr json start (end_ - start))

/-- `process_json_`. -/
def process_json_ (sinks : Sinks) (st : Component) (json : List Char) : Component × List Pub :=
  let top_val := extract_json_int_ json "top".toList
  let state_val := extract_json_int_ json "state".toList
  let r1 : Component × List Pub :=
    if top_val ≥ 0 ∧ top_val ≠ st.last_top_ then
      ({ st with last_top_ := top_val }, publish_state sinks.tank_level_sensor_ (.tank_level top_val))
    else (st, [])
  if state_val ≥ 0 ∧ state_val ≠ r1.1.last_state_ then
    ({ r1.1 with last_state_ := state_val },
      r1.2 ++ publish_state sinks.state_code_sensor_ (.state_code state_val))
  else r1

/-- `process_hex_code_`. Its only caller passes a buffer that starts with `<`, so
`code.substr(1)` is always in range. -/
def process_hex_code_ (sinks : Sinks) (st : Component) (code : List Char) : Component × List Pub :=
  let hex := code.drop 1
  if substr hex 0 4 = "2053".toList ∧ hex.length ≥ 10 then
    let level_hex := substr hex 4 2
    let level := hex_to_int_ level_hex
    if level ≥ 0 ∧ level ≠ st.last_top_ then
      ({ st with last_top_ := level }, publish_state sinks.tank_level_sensor_ (.tank_level level))
    else (st, [])
  else if substr hex 0 5 = "20123".toList ∨ substr hex 0 4 = "2071".toList
      ∨ substr hex 0 4 = "2010".toList then (st, [])
  else if substr hex 0 5 = "30123".toList then (st, [])
  else if substr hex 0 5 = "40123".toList ∨ substr hex 0 4 = "4071".toList
      ∨ substr hex 0 4 = "4010".toList ∨ substr hex 0 4 = "4033".toList then (st, [])
  else if substr hex 0 4 = "1053".toList ∧ hex.length ≥ 10 then
    let mode_hex := substr hex 4 2
    let mode_byte := hex_to_int_ mode_hex
    let mapping := find_mapping MODE_MAPPINGS mode_byte
    let in_refresh : Bool :=
      match mapping with
      | none => st.in_refresh_
      | some m =>
        if m.is_refresh then true
        else if mode_byte = 0x01 ∨ mode_byte = 0x04 ∨ mode_byte = 0x08 then false
        else st.in_refresh_
    let mode_str : String :=
      match mapping with
      | none => "Unknown"
      | some m => if in_refresh = true ∧ mode_byte = 0x00 then "Refresh" else m.mode
    let status_str : String :=
      match mapping with
      | none => "Unknown"
      | some m => m.status
    let source_str : String :=
      match mapping with
      | none => "Unknown"
      | some m => m.source
    let st0 : Component := { st with in_refresh_ := in_refresh }
    let r1 : Component × List Pub :=
      if mode_byte ≠ st0.last_mode_ then
        ({ st0 with last_mode_ := mode_byte }, publish_state sinks.mode_code_sensor_ (.mode_code mode_byte))
      else (st0, [])
    let r2 : Component × List Pub :=
      if mode_str ≠ r1.1.last_mode_str_ then
        ({ r1.1 with last_mode_str_ := mode_str },
          r1.2 ++ publish_state sinks.mode_text_sensor_ (.mode_text mode_str))
      else r1
    let r3 : Component × List Pub :=
      if status_str ≠ r2.1.last_status_ then
        ({ r2.1 with last_status_ := status_str },
          r2.2 ++ publish_state sinks.status_text_sensor_ (.status_text status_str))
      else r2
    if source_str ≠ r3.1.last_source_ then
      ({ r3.1 with last_source_ := source_str },
        r3.2 ++ publish_state sinks.source_text_sensor_ (.source_text source_str))
    else r3
  else (st, [])

/-- The opening marker of a JSON record. -/
def JSON_MARKER : List Char := "\x7b\"tanklevels\"".toList

/-- `process_buffer_`. -/
def process_buffer_ (sinks : Sinks) (st : Component) : Component × List Pub :=
  if st.buffer_ = [] then (st, [])
  else if st.buffer_.head? = some '<' then process_hex_code_ sinks st st.buffer_
  else
    match find st.buffer_ JSON_MARKER 0 with
    | none => (st, [])
    | some json_start =>
      match find st.buffer_ "\x7d\x7d".toList json_start with
      | none => (st, [])
      | some json_end =>
        process_json_ sinks st (substr st.buffer_ json_start (json_end - json_start + 2))

/-- The body of the `while` loop of `loop()` for one byte `c` read from the UART. -/
def feed (sinks : Sinks) (st : Component) (c : Char) : Component × List Pub :=
  if c = '\r' ∨ c = '\n' then
    if st.buffer_ ≠ [] then
      let r := process_buffer_ sinks st
      ({ r.1 with buffer_ := [] }, r.2)
    else (st, [])
  else if c = '<' then
    let r : Component × List Pub :=
      if st.buffer_ ≠ [] then
        let r := process_buffer_ sinks st
        ({ r.1 with buffer_ := [] }, r.2)
      else (st, [])
    ({ r.1 with buffer_ := ['<'] }, r.2)
  else
    let st1 : Component := { st with buffer_ := st.buffer_ ++ [c] }
    let r : Component × List Pub :=
      match find st1.buffer_ JSON_MARKER 0 with
      | none => (st1, [])
      | some json_start =>
        match find st1.buffer_ "\x7d\x7d".toList json_start with
        | none => (st1, [])
        | some json_end =>
          let r := process_json_ sinks st1 (substr st1.buffer_ json_start (json_end - json_start + 2))
          ({ r.1 with buffer_ := [] }, r.2)
    if r.1.buffer_.length > 500 then ({ r.1 with buffer_ := [] }, r.2) else r

/-- One call of `loop()` with the bytes `bytes` available on the UART: the loop body runs
once per byte, in order. -/
def loop (sinks : Sinks) (st : Component) : List Char → Component × List Pub
  | [] => (st, [])
  | c :: rest =>
    let r := feed sinks st c
    let r' := loop sinks r.1 rest
    (r'.1, r.2 ++ r'.2)

/-- Successive calls of `loop()`, one per chunk of bytes delivered by the transport. -/
def polls (sinks : Sinks) (st : Component) : List (List Char) → Component × List Pub
  | [] => (st, [])
  | chunk :: rest =>
    let r := loop sinks st chunk
    let r' := polls sinks r.1 rest
    (r'.1, r.2 ++ r'.2)

/-! ## Auxiliary definitions used to state the results -/

/-- The effect of the level branch for a parsed level. -/
def level_update (sinks : Sinks) (st : Component) (level : Int) : Component × List Pub :=
  if level ≥ 0 ∧ level ≠ st.last_top_ then
    ({ st with last_top_ := level }, publish_state sinks.tank_level_sensor_ (.tank_level level))
  else (st, [])

/-- The refresh flag after a display-panel frame carrying `mode_byte`. -/
def refresh_after (st : Component) (mode_byte : Int) : Bool :=
  match find_mapping MODE_MAPPINGS mode_byte with
  | none => st.in_refresh_
  | some m =>
    if m.is_refresh then true
    else if mode_byte = 0x01 ∨ mode_byte = 0x04 ∨ mode_byte = 0x08 then false
    else st.in_refresh_

/-- The mode text resolved for `mode_byte` (uses the refresh flag as already updated). -/
def mode_str_of (st : Component) (mode_byte : Int) : String :=
  match find_mapping MODE_MAPPINGS mode_byte with
  | none => "Unknown"
  | some m => if refresh_after st mode_byte = true ∧ mode_byte = 0x00 then "Refresh" else m.mode

/-- The status text resolved for `mode_byte`. -/
def status_str_of (mode_byte : Int) : String :=
  match find_mapping MODE_MAPPINGS mode_byte with
  | none => "Unknown"
  | some m => m.status

/-- The source text resolved for `mode_byte`. -/
def source_str_of (mode_byte : Int) : String :=
  match find_mapping MODE_MAPPINGS mode_byte with
  | none => "Unknown"
  | some m => m.source

/-- The effect of the display-panel branch for a parsed mode byte, field by field. -/
def mode_update (sinks : Sinks) (st : Component) (mode_byte : Int) : Component × List Pub :=
  ({ st with
      in_refresh_ := refresh_after st mode_byte,
      last_mode_ := mode_byte,
      last_mode_str_ := mode_str_of st mode_byte,
      last_status_ := status_str_of mode_byte,
      last_source_ := source_str_of mode_byte },
    (if mode_byte ≠ st.last_mode_ then publish_state sinks.mode_code_sensor_ (.mode_code mode_byte) else [])
    ++ (if mode_str_of st mode_byte ≠ st.last_mode_str_ then
          publish_state sinks.mode_text_sensor_ (.mode_text (mode_str_of st mode_byte)) else [])
    ++ (if status_str_of mode_byte ≠ st.last_status_ then
          publish_state sinks.status_text_sensor_ (.status_text (status_str_of mode_byte)) else [])
    ++ (if source_str_of mode_byte ≠ st.last_source_ then
          publish_state sinks.source_text_sensor_ (.source_text (source_str_of mode_byte)) else []))

/-- The four change-filtered publish blocks of the display-panel branch, in order. -/
def publish_chain (sinks : Sinks) (st0 : Component) (mode_byte : Int)
    (mode_str status_str source_str : String) : Component × List Pub :=
  let r1 : Component × List Pub :=
    if mode_byte ≠ st0.last_mode_ then
      ({ st0 with last_mode_ := mode_byte }, publish_state sinks.mode_code_sensor_ (.mode_code mode_byte))
    else (st0, [])
  let r2 : Component × List Pub :=
    if mode_str ≠ r1.1.last_mode_str_ then
      ({ r1.1 with last_mode_str_ := mode_str },
        r1.2 ++ publish_state sinks.mode_text_sensor_ (.mode_text mode_str))
    else r1
  let r3 : Component × List Pub :=
    if status_str ≠ r2.1.last_status_ then
      ({ r2.1 with last_status_ := status_str },
        r2.2 ++ publish_state sinks.status_text_sensor_ (.status_text status_str))
    else r2
  if source_str ≠ r3.1.last_source_ then
    ({ r3.1 with last_source_ := source_str },
      r3.2 ++ publish_state sinks.source_text_sensor_ (.source_text source_str))
  else r3

/-- Payload field of a frame: the value `hex_to_int_` reads at offset 4 after the `<`. -/
def payload (code : List Char) : Int :=
  hex_to_int_ (substr (code.drop 1) 4 2)

/-- The frame passes the test of the level branch. -/
def is_level_frame (code : List Char) : Bool :=
  decide (substr (code.drop 1) 0 4 = "2053".toList ∧ (code.drop 1).length ≥ 10)

/-- The frame passes the test of the display-panel branch. -/
def is_mode_frame (code : List Char) : Bool :=
  decide (substr (code.drop 1) 0 4 = "1053".toList ∧ (code.drop 1).length ≥ 10)

/-- The decoder state after the refresh-marker frame, from a fresh decoder. -/
def after_marker : Component :=
  { buffer_ := [], last_top_ := -1, last_mode_ := 16, last_state_ := -1,
    last_status_ := "Draining", last_source_ := "Rainwater", last_mode_str_ := "Refresh",
    in_refresh_ := true }

/-- The buffer holds a complete JSON record. -/
def has_json_record (buf : List Char) : Bool :=
  match find buf JSON_MARKER 0 with
  | none => false
  | some json_start => (find buf "\x7d\x7d".toList json_start).isSome

/-- The component with its pending buffer replaced. -/
def set_buffer (st : Component) (buf : List Char) : Component :=
  { st with buffer_ := buf }

/-- Whether the byte is one of the record boundaries CR, LF and `<`. -/
def is_boundary (c : Char) : Bool :=
  c = '\r' || c = '\n' || c = '<'

/-- The search string `"\"" + key + "\":\""` built by `extract_json_int_`. -/
def json_key_pattern (key : List Char) : List Char :=
  '"' :: key ++ ['"', ':', '"']

/-- The number written by a string of decimal digits. -/
def decimal_value (a : List Char) : Nat :=
  a.foldl (fun acc c => 10 * acc + (c.toNat - 48)) 0

/-- The effect of the state block of `process_json_` for a parsed state value. -/
def state_update (sinks : Sinks) (st : Component) (state_val : Int) : Component × List Pub :=
  if state_val ≥ 0 ∧ state_val ≠ st.last_state_ then
    ({ st with last_state_ := state_val }, publish_state sinks.state_code_sensor_ (.state_code state_val))
  else (st, [])

/-- The key is missing from the record, or the value after its first occurrence has no
closing quote. -/
def field_absent (json key : List Char) : Prop :=
  ¬ json_key_pattern key <:+: json
  ∨ ∃ pre tail, json = pre ++ json_key_pattern key ++ tail
      ∧ (∀ j, j < pre.length → ¬ json_key_pattern key <+: json.drop j) ∧ '"' ∉ tail

/-- The heartbeat and version-query prefixes that `process_hex_code_` drops. -/
def IGNORED_PREFIXES : List (List Char) :=
  ["20123".toList, "2071".toList, "2010".toList, "30123".toList, "40123".toList,
    "4071".toList, "4010".toList, "4033".toList]

/-- A complete record handed to a decoder: the content of a hex frame after its `<`, or
the text of a JSON record. -/
inductive Record where
  | hex (hex : List Char)
  | json (json : List Char)
  deriving DecidableEq, Repr

/-- Decode one record with the decoder of its kind. -/
def decode (sinks : Sinks) (st : Component) : Record → Component × List Pub
  | .hex hex => process_hex_code_ sinks st ('<' :: hex)
  | .json json => process_json_ sinks st json

/-- Decode a sequence of records in order, collecting the publish calls. -/
def decode_all (sinks : Sinks) (st : Component) : List Record → Component × List Pub
  | [] => (st, [])
  | r :: rest =>
    let a := decode sinks st r
    let b := decode_all sinks a.1 rest
    (b.1, a.2 ++ b.2)

/-- A display-panel frame (prefix `1053`, length at least 10) carrying the byte 0x10. -/
def is_refresh_marker (r : Record) : Bool :=
  match r with
  | .hex hex => is_mode_frame ('<' :: hex) && decide (payload ('<' :: hex) = 0x10)
  | .json _ => false

/-- A display-panel frame (prefix `1053`, length at least 10) carrying 0x01, 0x04 or 0x08. -/
def is_idle_frame (r : Record) : Bool :=
  match r with
  | .hex hex =>
    is_mode_frame ('<' :: hex)
      && decide (payload ('<' :: hex) = 0x01 ∨ payload ('<' :: hex) = 0x04
          ∨ payload ('<' :: hex) = 0x08)
  | .json _ => false

/-- The argument of a publish call on the tank-level sensor. -/
def tank_level_of : Pub → Option Int
  | .tank_level v => some v
  | _ => none

/-- The argument of a publish call on the raw mode code sensor. -/
def mode_code_of : Pub → Option Int
  | .mode_code v => some v
  | _ => none

/-- The argument of a publish call on the raw state code sensor. -/
def state_code_of : Pub → Option Int
  | .state_code v => some v
  | _ => none

/-- The argument of a publish call on the mode text sensor. -/
def mode_text_of : Pub → Option String
  | .mode_text s => some s
  | _ => none

/-- The argument of a publish call on the status text sensor. -/
def status_text_of : Pub → Option String
  | .status_text s => some s
  | _ => none

/-- The argument of a publish call on the source text sensor. -/
def source_text_of : Pub → Option String
  | .source_text s => some s
  | _ => none

/-- The value most recently published on the channel selected by `sel`, if any. -/
def last_published {α : Type} (sel : Pub → Option α) (out : List Pub) : Option α :=
  (out.filterMap sel).getLast?

/-- Every last-value field holds the value most recently published on its channel, or its
initial value when nothing was published there. -/
def tracks (st : Component) (out : List Pub) : Prop :=
  st.last_top_ = (last_published tank_level_of out).getD (-1)
  ∧ st.last_mode_ = (last_published mode_code_of out).getD (-1)
  ∧ st.last_state_ = (last_published state_code_of out).getD (-1)
  ∧ st.last_mode_str_ = (last_published mode_text_of out).getD ""
  ∧ st.last_status_ = (last_published status_text_of out).getD ""
  ∧ st.last_source_ = (last_published source_text_of out).getD ""

/-- The values a sensor can receive according to its channel: the three text channels
carry only the strings of the mode table and `Unknown`. -/
def valid_pub : Pub → Bool
  | .mode_text s => decide (s ∈ ["Normal", "Holiday", "Refresh", "Unknown"])
  | .status_text s => decide (s ∈ ["Idle", "Filling", "Draining", "Unknown"])
  | .source_text s => decide (s ∈ ["Rainwater", "Mains", "Unknown"])
  | _ => true

/-! ## Lemmas -/

theorem loop_append (sinks : Sinks) (st : Component) (xs ys : List Char) :
    loop sinks st (xs ++ ys)
      = ((loop sinks (loop sinks st xs).1 ys).1,
          (loop sinks st xs).2 ++ (loop sinks (loop sinks st xs).1 ys).2) := by
  induction xs generalizing st with
  | nil => simp [loop]
  | cons c t ih => simp [loop, ih, List.append_assoc]

theorem polls_eq_loop (sinks : Sinks) (st : Component) (chunks : List (List Char)) :
    polls sinks st chunks = loop sinks st chunks.flatten := by
  induction chunks generalizing st with
  | nil => simp [polls, loop]
  | cons c t ih => simp [polls, ih, loop_append]

theorem digitVal_hex_range {c : Char} {x : Nat} (h : digitVal c = some x) (hx : x < 16) :
    (48 ≤ c.toNat ∧ c.toNat ≤ 57) ∨ (97 ≤ c.toNat ∧ c.toNat ≤ 102) ∨ (65 ≤ c.toNat ∧ c.toNat ≤ 70) := by
  unfold digitVal at h
  split_ifs at h with h1 h2 h3
  · exact Or.inl h1
  · right; left; simp at h; omega
  · right; right; simp at h; omega

/-- The digit values of the twenty-two hexadecimal digits. -/
theorem digitVal_hex_digits :
    "0123456789abcdefABCDEF".toList.map digitVal
      = [some 0, some 1, some 2, some 3, some 4, some 5, some 6, some 7, some 8, some 9,
          some 10, some 11, some 12, some 13, some 14, some 15,
          some 10, some 11, some 12, some 13, some 14, some 15] := by
  decide

theorem ne_of_toNat_ne {c d : Char} (h : c.toNat ≠ d.toNat) : c ≠ d := by
  intro e; exact h (by rw [e])

theorem hex_to_int_two_digits {h l : Char} {x y : Nat}
    (hh : digitVal h = some x) (hx : x < 16) (hl : digitVal l = some y) (hy : y < 16) :
    hex_to_int_ [h, l] = 16 * (x : Int) + y := by
  have rh := digitVal_hex_range hh hx
  have rl := digitVal_hex_range hl hy
  have sp : isspace h = false := by
    simp [isspace]; omega
  have m1 : h ≠ '-' := ne_of_toNat_ne (by have : ('-' : Char).toNat = 45 := rfl; omega)
  have m2 : h ≠ '+' := ne_of_toNat_ne (by have : ('+' : Char).toNat = 43 := rfl; omega)
  have m3 : l ≠ 'x' := ne_of_toNat_ne (by have : ('x' : Char).toNat = 120 := rfl; omega)
  have m4 : l ≠ 'X' := ne_of_toNat_ne (by have : ('X' : Char).toNat = 88 := rfl; omega)
  simp [hex_to_int_, strtol, List.dropWhile, sp, m1, m2, m3, m4, accumDigits, hh, hl, hx, hy, LONG_MAX]
  omega

theorem publish_chain_eq (sinks : Sinks) (st0 : Component) (b : Int) (ms ss so : String) :
    publish_chain sinks st0 b ms ss so
      = ({ st0 with last_mode_ := b, last_mode_str_ := ms, last_status_ := ss, last_source_ := so },
          (if b ≠ st0.last_mode_ then publish_state sinks.mode_code_sensor_ (.mode_code b) else [])
          ++ (if ms ≠ st0.last_mode_str_ then publish_state sinks.mode_text_sensor_ (.mode_text ms) else [])
          ++ (if ss ≠ st0.last_status_ then publish_state sinks.status_text_sensor_ (.status_text ss) else [])
          ++ (if so ≠ st0.last_source_ then publish_state sinks.source_text_sensor_ (.source_text so) else [])) := by
  obtain ⟨buf, lt, lm, ls, lst, lso, lms, ir⟩ := st0
  by_cases c1 : b = lm <;> by_cases c2 : ms = lms <;> by_cases c3 : ss = lst <;>
    by_cases c4 : so = lso <;> simp [publish_chain, c1, c2, c3, c4]


theorem substr_zero_four_of_five {hex p : List Char} (h : substr hex 0 5 = p) :
    substr hex 0 4 = p.take 4 := by
  subst h
  simp [substr, List.take_take]

theorem process_hex_code_eq (sinks : Sinks) (st : Component) (code : List Char) :
    process_hex_code_ sinks st code
      = if is_level_frame code then level_update sinks st (payload code)
        else if is_mode_frame code then mode_update sinks st (payload code)
        else (st, []) := by
  unfold is_level_frame is_mode_frame payload
  by_cases h1 : substr (code.drop 1) 0 4 = "2053".toList ∧ (code.drop 1).length ≥ 10
  · rw [if_pos (decide_eq_true h1)]
    simp only [process_hex_code_, level_update, if_pos h1]
  · by_cases h5 : substr (code.drop 1) 0 4 = "1053".toList ∧ (code.drop 1).length ≥ 10
    · have e := h5.1
      have h2 : ¬ (substr (code.drop 1) 0 5 = "20123".toList ∨ substr (code.drop 1) 0 4 = "2071".toList
          ∨ substr (code.drop 1) 0 4 = "2010".toList) := by
        rintro (h | h | h)
        · have := substr_zero_four_of_five h; rw [e] at this; revert this; decide
        · rw [e] at h; revert h; decide
        · rw [e] at h; revert h; decide
      have h3 : ¬ substr (code.drop 1) 0 5 = "30123".toList := by
        intro h
        have := substr_zero_four_of_five h; rw [e] at this; revert this; decide
      have h4 : ¬ (substr (code.drop 1) 0 5 = "40123".toList ∨ substr (code.drop 1) 0 4 = "4071".toList
          ∨ substr (code.drop 1) 0 4 = "4010".toList ∨ substr (code.drop 1) 0 4 = "4033".toList) := by
        rintro (h | h | h | h)
        · have := substr_zero_four_of_five h; rw [e] at this; revert this; decide
        · rw [e] at h; revert h; decide
        · rw [e] at h; revert h; decide
        · rw [e] at h; revert h; decide
      have hb : process_hex_code_ sinks st code
          = publish_chain sinks { st with in_refresh_ := refresh_after st (hex_to_int_ (substr (code.drop 1) 4 2)) }
              (hex_to_int_ (substr (code.drop 1) 4 2))
              (mode_str_of st (hex_to_int_ (substr (code.drop 1) 4 2)))
              (status_str_of (hex_to_int_ (substr (code.drop 1) 4 2)))
              (source_str_of (hex_to_int_ (substr (code.drop 1) 4 2))) := by
        unfold process_hex_code_
        simp only [if_neg h1, if_neg h2, if_neg h3, if_neg h4, if_pos h5]
        rfl
      rw [hb, publish_chain_eq]
      simp only [decide_eq_true h5, decide_eq_false h1, Bool.false_eq_true, if_false, if_true]
      rfl
    · simp only [decide_eq_false h1, decide_eq_false h5, Bool.false_eq_true, if_false]
      unfold process_hex_code_
      simp only [if_neg h1, if_neg h5]
      split_ifs <;> rfl


theorem find_mapping_none {tbl : List ModeMapping} {b : Int} :
    find_mapping tbl b = none ↔ ∀ r ∈ tbl, (r.code : Int) ≠ b := by
  induction tbl with
  | nil => simp [find_mapping]
  | cons m t ih =>
    by_cases h : (m.code : Int) = b <;> simp [find_mapping, h, ih]

theorem find_mapping_first {tbl pre post : List ModeMapping} {row : ModeMapping} {b : Int}
    (ht : tbl = pre ++ row :: post) (hrow : (row.code : Int) = b)
    (hpre : ∀ r ∈ pre, (r.code : Int) ≠ b) : find_mapping tbl b = some row := by
  subst ht
  induction pre with
  | nil => simp [find_mapping, hrow]
  | cons m t ih =>
    have hm : (m.code : Int) ≠ b := hpre m (by simp)
    simp only [List.cons_append, find_mapping, if_neg hm]
    exact ih (fun r hr => hpre r (by simp [hr]))

/-- The shape of a frame whose first four characters and two payload characters are known. -/
theorem frame_shape {hex p : List Char} {h l : Char} (hp : hex.take 4 = p) (hlen : p.length = 4)
    (h4 : hex[4]? = some h) (h5 : hex[5]? = some l) :
    substr hex 0 4 = p ∧ substr hex 4 2 = [h, l] := by
  subst hp
  rcases hex with _ | ⟨a, _ | ⟨b, _ | ⟨c, _ | ⟨d, _ | ⟨e, _ | ⟨f, t⟩⟩⟩⟩⟩⟩ <;> simp_all [substr]

theorem level_frame_eq (sinks : Sinks) (st : Component) {hex : List Char} {h l : Char}
    (hp : hex.take 4 = "2053".toList) (hlen : 10 ≤ hex.length)
    (h4 : hex[4]? = some h) (h5 : hex[5]? = some l) :
    process_hex_code_ sinks st ('<' :: hex) = level_update sinks st (hex_to_int_ [h, l]) := by
  obtain ⟨e1, e2⟩ := frame_shape hp (by decide) h4 h5
  have hl : is_level_frame ('<' :: hex) = true := by
    unfold is_level_frame
    rw [List.drop_one, List.tail_cons, e1]
    exact decide_eq_true ⟨rfl, hlen⟩
  rw [process_hex_code_eq, hl, if_pos rfl, payload, List.drop_one, List.tail_cons, e2]

theorem mode_frame_eq (sinks : Sinks) (st : Component) {hex : List Char} {h l : Char}
    (hp : hex.take 4 = "1053".toList) (hlen : 10 ≤ hex.length)
    (h4 : hex[4]? = some h) (h5 : hex[5]? = some l) :
    process_hex_code_ sinks st ('<' :: hex) = mode_update sinks st (hex_to_int_ [h, l]) := by
  obtain ⟨e1, e2⟩ := frame_shape hp (by decide) h4 h5
  have hl : is_level_frame ('<' :: hex) = false := by
    unfold is_level_frame
    rw [List.drop_one, List.tail_cons, e1]
    exact decide_eq_false (fun c => absurd c.1 (by decide))
  have hm : is_mode_frame ('<' :: hex) = true := by
    unfold is_mode_frame
    rw [List.drop_one, List.tail_cons, e1]
    exact decide_eq_true ⟨rfl, hlen⟩
  rw [process_hex_code_eq, hl, hm, if_neg (by decide), if_pos rfl, payload, List.drop_one,
    List.tail_cons, e2]

theorem level_update_idem (sinks : Sinks) (st : Component) (v : Int) :
    level_update sinks (level_update sinks st v).1 v = ((level_update sinks st v).1, []) := by
  unfold level_update
  by_cases c : v ≥ 0 ∧ v ≠ st.last_top_
  · simp [c]
  · simp only [if_neg c]

theorem refresh_after_idem (sinks : Sinks) (st : Component) (b : Int) :
    refresh_after (mode_update sinks st b).1 b = refresh_after st b := by
  simp only [refresh_after, mode_update]
  cases find_mapping MODE_MAPPINGS b with
  | none => rfl
  | some m => simp only; split_ifs <;> rfl

theorem mode_str_of_idem (sinks : Sinks) (st : Component) (b : Int) :
    mode_str_of (mode_update sinks st b).1 b = mode_str_of st b := by
  simp only [mode_str_of, refresh_after_idem]

theorem mode_update_idem (sinks : Sinks) (st : Component) (b : Int) :
    mode_update sinks (mode_update sinks st b).1 b = ((mode_update sinks st b).1, []) := by
  have e1 := refresh_after_idem sinks st b
  have e2 := mode_str_of_idem sinks st b
  rw [mode_update, e1, e2]
  simp [mode_update]

theorem process_json_idem (sinks : Sinks) (st : Component) (json : List Char) :
    process_json_ sinks (process_json_ sinks st json).1 json = ((process_json_ sinks st json).1, []) := by
  unfold process_json_
  generalize extract_json_int_ json "top".toList = t
  generalize extract_json_int_ json "state".toList = s
  by_cases c1 : t ≥ 0 ∧ t ≠ st.last_top_ <;> by_cases c2 : s ≥ 0 ∧ s ≠ st.last_state_ <;>
    simp [c1, c2]

theorem process_hex_code_idem (sinks : Sinks) (st : Component) (code : List Char) :
    process_hex_code_ sinks (process_hex_code_ sinks st code).1 code
      = ((process_hex_code_ sinks st code).1, []) := by
  simp only [process_hex_code_eq]
  split_ifs
  · exact level_update_idem sinks st _
  · exact mode_update_idem sinks st _
  · rfl

theorem mode_frame_cons (sinks : Sinks) (st : Component) (h l : Char) (rest : List Char)
    (hrest : 4 ≤ rest.length) :
    process_hex_code_ sinks st ('<' :: '1' :: '0' :: '5' :: '3' :: h :: l :: rest)
      = mode_update sinks st (hex_to_int_ [h, l]) :=
  mode_frame_eq sinks st rfl (by simp only [List.length_cons]; omega) (by simp) (by simp)

theorem isPrefixOf_eq_false_iff {n l : List Char} : n.isPrefixOf l = false ↔ ¬ n <+: l := by
  constructor
  · intro h hp
    rw [List.isPrefixOf_iff_prefix.mpr hp] at h
    exact absurd h (by decide)
  · intro h
    cases hb : n.isPrefixOf l with
    | false => rfl
    | true => exact absurd (List.isPrefixOf_iff_prefix.mp hb) h

theorem find_eq_some_iff {s n : List Char} {pos i : Nat} :
    find s n pos = some i ↔
      (pos ≤ i ∧ i ≤ s.length ∧ n <+: s.drop i) ∧ ∀ j, pos ≤ j → j < i → ¬ n <+: s.drop j := by
  unfold find
  rw [List.find?_range_eq_some]
  simp only [Bool.and_eq_true, decide_eq_true_eq, List.isPrefixOf_iff_prefix, List.mem_range,
    Bool.not_eq_true', Bool.and_eq_false_imp, Bool.not_eq_eq_eq_not, Bool.not_true]
  constructor
  · rintro ⟨⟨h1, h2⟩, h3, h4⟩
    refine ⟨⟨h1, by omega, h2⟩, fun j hj hji hp => ?_⟩
    exact isPrefixOf_eq_false_iff.mp (h4 j hji hj) hp
  · rintro ⟨⟨h1, h2, h3⟩, h4⟩
    refine ⟨⟨h1, h3⟩, by omega, fun j hji hj => ?_⟩
    exact isPrefixOf_eq_false_iff.mpr (h4 j hj hji)

theorem find_eq_none_iff {s n : List Char} {pos : Nat} :
    find s n pos = none ↔ ∀ j, pos ≤ j → j ≤ s.length → ¬ n <+: s.drop j := by
  unfold find
  rw [List.find?_range_eq_none]
  simp only [Bool.not_eq_true', Bool.and_eq_false_imp, decide_eq_true_eq]
  constructor
  · intro h j hj hl hp
    exact isPrefixOf_eq_false_iff.mp (h j (by omega) hj) hp
  · intro h j hl hj
    exact isPrefixOf_eq_false_iff.mpr (h j hj (by omega))

/-- An occurrence at or after `pos` makes `find` succeed, at or before it. -/
theorem find_of_occurrence {s n : List Char} {pos k : Nat} (hk : pos ≤ k) (hl : k ≤ s.length)
    (hp : n <+: s.drop k) : ∃ i, find s n pos = some i ∧ i ≤ k := by
  cases h : find s n pos with
  | none => exact absurd hp (find_eq_none_iff.mp h k hk hl)
  | some i =>
    refine ⟨i, rfl, ?_⟩
    by_contra hlt
    exact (find_eq_some_iff.mp h).2 k hk (by omega) hp

theorem prefix_drop_append {s t n : List Char} {i : Nat} (h : n <+: s.drop i) :
    n <+: (s ++ t).drop i := by
  by_cases hi : i ≤ s.length
  · rw [List.drop_append_of_le_length hi]
    exact h.trans (List.prefix_append _ _)
  · rw [List.drop_eq_nil_of_le (by omega)] at h
    have : n = [] := List.prefix_nil.mp h
    subst this
    exact List.nil_prefix

theorem has_json_record_append {p q : List Char} (h : has_json_record p = true) :
    has_json_record (p ++ q) = true := by
  unfold has_json_record at h ⊢
  cases h1 : find p JSON_MARKER 0 with
  | none => simp [h1] at h
  | some i =>
    simp only [h1, Option.isSome_iff_exists] at h
    obtain ⟨j, h2⟩ := h
    obtain ⟨⟨_, hi, hpi⟩, _⟩ := find_eq_some_iff.mp h1
    obtain ⟨⟨hij, hj, hpj⟩, _⟩ := find_eq_some_iff.mp h2
    obtain ⟨i', e1, hi'⟩ := @find_of_occurrence (p ++ q) JSON_MARKER 0 i (Nat.zero_le i)
      (by simp only [List.length_append]; omega) (prefix_drop_append hpi)
    obtain ⟨j', e2, _⟩ := @find_of_occurrence (p ++ q) "\x7d\x7d".toList i' j (by omega)
      (by simp only [List.length_append]; omega) (prefix_drop_append hpj)
    rw [e1]
    simp only [e2, Option.isSome_some]

/-- The test of `loop()` succeeds exactly when the buffer holds the marker at some index
and `}}` at some index not before it. -/
theorem has_json_record_iff {buf : List Char} :
    has_json_record buf = true ↔
      ∃ i j, i ≤ j ∧ j ≤ buf.length ∧ JSON_MARKER <+: buf.drop i
        ∧ "\x7d\x7d".toList <+: buf.drop j := by
  unfold has_json_record
  constructor
  · intro h
    cases h1 : find buf JSON_MARKER 0 with
    | none => rw [h1] at h; exact absurd h Bool.false_ne_true
    | some i =>
      rw [h1] at h
      change (find buf "\x7d\x7d".toList i).isSome = true at h
      obtain ⟨j, h2⟩ := Option.isSome_iff_exists.mp h
      obtain ⟨⟨_, _, hpi⟩, _⟩ := find_eq_some_iff.mp h1
      obtain ⟨⟨hij, hj, hpj⟩, _⟩ := find_eq_some_iff.mp h2
      exact ⟨i, j, hij, hj, hpi, hpj⟩
  · rintro ⟨i, j, hij, hj, hpi, hpj⟩
    obtain ⟨i', e1, hi'⟩ := @find_of_occurrence buf JSON_MARKER 0 i (Nat.zero_le i) (by omega) hpi
    obtain ⟨j', e2, _⟩ := @find_of_occurrence buf "\x7d\x7d".toList i' j (by omega) hj hpj
    rw [e1]
    simp only [e2, Option.isSome_some]

theorem has_json_record_mono {p s : List Char} (hp : p <+: s) (h : has_json_record s = false) :
    has_json_record p = false := by
  obtain ⟨q, rfl⟩ := hp
  cases hj : has_json_record p with
  | false => rfl
  | true => rw [has_json_record_append hj] at h; exact absurd h (by decide)

theorem set_buffer_clear (st : Component) (buf : List Char) (h : st.buffer_ = []) :
    set_buffer (set_buffer st buf) [] = st := by
  obtain ⟨b0, _, _, _, _, _, _, _⟩ := st
  simp only at h
  subst h
  rfl

theorem level_update_set_buffer (sinks : Sinks) (st : Component) (buf : List Char) (v : Int) :
    level_update sinks (set_buffer st buf) v
      = (set_buffer (level_update sinks st v).1 buf, (level_update sinks st v).2) := by
  unfold level_update set_buffer
  by_cases c : v ≥ 0 ∧ v ≠ st.last_top_
  · simp only [if_pos c]
  · simp only [if_neg c]

theorem mode_update_set_buffer (sinks : Sinks) (st : Component) (buf : List Char) (b : Int) :
    mode_update sinks (set_buffer st buf) b
      = (set_buffer (mode_update sinks st b).1 buf, (mode_update sinks st b).2) := rfl

theorem process_hex_code_set_buffer (sinks : Sinks) (st : Component) (buf code : List Char) :
    process_hex_code_ sinks (set_buffer st buf) code
      = (set_buffer (process_hex_code_ sinks st code).1 buf, (process_hex_code_ sinks st code).2) := by
  simp only [process_hex_code_eq]
  split_ifs
  · exact level_update_set_buffer sinks st buf _
  · exact mode_update_set_buffer sinks st buf _
  · rfl

theorem feed_accumulate (sinks : Sinks) (st : Component) (c : Char) (hc : is_boundary c = false)
    (hj : has_json_record (st.buffer_ ++ [c]) = false) (hl : (st.buffer_ ++ [c]).length ≤ 500) :
    feed sinks st c = (set_buffer st (st.buffer_ ++ [c]), []) := by
  simp only [is_boundary, Bool.or_eq_false_iff, decide_eq_false_iff_not] at hc
  obtain ⟨⟨c1, c2⟩, c3⟩ := hc
  unfold feed
  rw [if_neg (by simp [c1, c2]), if_neg c3]
  unfold has_json_record at hj
  cases h1 : find (st.buffer_ ++ [c]) JSON_MARKER 0 with
  | none =>
    simp only [h1]
    rw [if_neg (by simpa using hl)]
    rfl
  | some i =>
    rw [h1] at hj
    change (find (st.buffer_ ++ [c]) "\x7d\x7d".toList i).isSome = false at hj
    have hj' : find (st.buffer_ ++ [c]) "\x7d\x7d".toList i = none := by
      cases h2 : find (st.buffer_ ++ [c]) "\x7d\x7d".toList i with
      | none => rfl
      | some j => rw [h2] at hj; exact absurd hj (by simp)
    simp only [h1, hj']
    rw [if_neg (by simpa using hl)]
    rfl

theorem feed_overflow (sinks : Sinks) (st : Component) (c : Char) (hc : is_boundary c = false)
    (hj : has_json_record (st.buffer_ ++ [c]) = false) (hl : 500 < (st.buffer_ ++ [c]).length) :
    feed sinks st c = (set_buffer st [], []) := by
  simp only [is_boundary, Bool.or_eq_false_iff, decide_eq_false_iff_not] at hc
  obtain ⟨⟨c1, c2⟩, c3⟩ := hc
  unfold feed
  rw [if_neg (by simp [c1, c2]), if_neg c3]
  unfold has_json_record at hj
  cases h1 : find (st.buffer_ ++ [c]) JSON_MARKER 0 with
  | none =>
    simp only [h1]
    rw [if_pos (by simpa using hl)]
    rfl
  | some i =>
    rw [h1] at hj
    change (find (st.buffer_ ++ [c]) "\x7d\x7d".toList i).isSome = false at hj
    have hj' : find (st.buffer_ ++ [c]) "\x7d\x7d".toList i = none := by
      cases h2 : find (st.buffer_ ++ [c]) "\x7d\x7d".toList i with
      | none => rfl
      | some j => rw [h2] at hj; exact absurd hj (by simp)
    simp only [h1, hj']
    rw [if_pos (by simpa using hl)]
    rfl

theorem find_none_of_not_mem {s n : List Char} {c : Char} (pos : Nat) (h : c ∉ s) :
    find s (c :: n) pos = none := by
  rw [find_eq_none_iff]
  intro j _ _ hp
  have h1 : c ∈ c :: n := List.mem_cons_self c n
  exact h (List.mem_of_mem_drop (hp.subset h1))

theorem has_json_record_of_no_brace {s : List Char} (h : '{' ∉ s) : has_json_record s = false := by
  unfold has_json_record
  have : find s JSON_MARKER 0 = none := find_none_of_not_mem 0 h
  rw [this]

theorem loop_accumulate (sinks : Sinks) (bs : List Char) :
    ∀ st : Component, (∀ c ∈ bs, is_boundary c = false) →
      has_json_record (st.buffer_ ++ bs) = false → (st.buffer_ ++ bs).length ≤ 500 →
      loop sinks st bs = (set_buffer st (st.buffer_ ++ bs), []) := by
  induction bs with
  | nil => intro st _ _ _; simp [loop, set_buffer]
  | cons c t ih =>
    intro st hb hj hl
    have e : st.buffer_ ++ c :: t = (st.buffer_ ++ [c]) ++ t := by simp
    have hf := feed_accumulate sinks st c (hb c (by simp))
      (has_json_record_mono ⟨t, e.symm⟩ hj)
      (by rw [e] at hl; simp only [List.length_append] at hl ⊢; omega)
    have ih' := ih (set_buffer st (st.buffer_ ++ [c])) (fun d hd => hb d (by simp [hd]))
      (by simpa [set_buffer] using hj) (by simpa [set_buffer] using hl)
    simp only [loop, hf, ih']
    simp [set_buffer]

theorem process_buffer_hex (sinks : Sinks) (st : Component) (body : List Char) :
    process_buffer_ sinks (set_buffer st ('<' :: body))
      = (set_buffer (process_hex_code_ sinks st ('<' :: body)).1 ('<' :: body),
          (process_hex_code_ sinks st ('<' :: body)).2) := by
  unfold process_buffer_
  rw [if_neg (by simp [set_buffer]), if_pos (by simp [set_buffer])]
  exact process_hex_code_set_buffer sinks st _ _

theorem feed_boundary_hex (sinks : Sinks) (st : Component) (body : List Char) (b : Char)
    (hb : b = '\r' ∨ b = '\n' ∨ b = '<') :
    feed sinks (set_buffer st ('<' :: body)) b
      = (set_buffer (process_hex_code_ sinks st ('<' :: body)).1 (if b = '<' then ['<'] else []),
          (process_hex_code_ sinks st ('<' :: body)).2) := by
  have hne : (set_buffer st ('<' :: body)).buffer_ ≠ [] := by simp [set_buffer]
  unfold feed
  by_cases h1 : b = '\r' ∨ b = '\n'
  · have h2 : b ≠ '<' := by rcases h1 with rfl | rfl <;> decide
    rw [if_pos h1, if_pos hne, if_neg h2, process_buffer_hex]
    rfl
  · have h2 : b = '<' := by tauto
    rw [if_neg h1, if_pos h2, if_pos hne, if_pos h2, process_buffer_hex]
    rfl

theorem feed_boundary_empty (sinks : Sinks) (st : Component) (c : Char) (he : st.buffer_ = [])
    (hc : c = '\r' ∨ c = '\n') : feed sinks st c = (st, []) := by
  unfold feed
  rw [if_pos hc, if_neg (by simp [he])]

theorem feed_open_empty (sinks : Sinks) (st : Component) (he : st.buffer_ = []) :
    feed sinks st '<' = (set_buffer st ['<'], []) := by
  unfold feed
  rw [if_neg (by decide), if_pos rfl, if_neg (by simp [he])]
  rfl

theorem loop_hex_body (sinks : Sinks) (st : Component) (body : List Char)
    (hempty : st.buffer_ = []) (hlen : body.length ≤ 499)
    (hbody : ∀ c ∈ body, c ≠ '\r' ∧ c ≠ '\n' ∧ c ≠ '<')
    (hjson : has_json_record ('<' :: body) = false) :
    loop sinks st ('<' :: body) = (set_buffer st ('<' :: body), []) := by
  have h := loop_accumulate sinks body (set_buffer st ['<'])
    (fun c hc => by
      obtain ⟨a1, a2, a3⟩ := hbody c hc
      simp [is_boundary, a1, a2, a3])
    (by simpa [set_buffer] using hjson)
    (by simp only [set_buffer, List.length_append, List.length_singleton]; omega)
  simp only [loop, feed_open_empty sinks st hempty, h]
  simp [set_buffer]

theorem digit_char_facts {c : Char} (h : c ∈ "0123456789".toList) :
    digitVal c = some (c.toNat - 48) ∧ c.toNat - 48 < 10 ∧ isspace c = false
      ∧ c ≠ '-' ∧ c ≠ '+' ∧ c ≠ '"' := by
  simp only [String.toList, List.mem_cons, List.mem_singleton, List.not_mem_nil, or_false] at h
  rcases h with rfl | rfl | rfl | rfl | rfl | rfl | rfl | rfl | rfl | rfl <;> decide

theorem accumDigits_digits (a : List Char) (h : ∀ c ∈ a, c ∈ "0123456789".toList) (acc : Nat) :
    accumDigits 10 a acc = a.foldl (fun acc c => 10 * acc + (c.toNat - 48)) acc := by
  induction a generalizing acc with
  | nil => rfl
  | cons c t ih =>
    obtain ⟨h1, h2, _⟩ := digit_char_facts (h c (by simp))
    simp only [accumDigits, h1, if_pos h2, List.foldl_cons]
    rw [ih (fun d hd => h d (by simp [hd])), Nat.mul_comm]

theorem atoi_digits (a : List Char) (h : ∀ c ∈ a, c ∈ "0123456789".toList)
    (hr : decimal_value a ≤ 2147483647) : atoi a = decimal_value a := by
  cases a with
  | nil => decide
  | cons c t =>
    obtain ⟨_, _, h3, h4, h5, _⟩ := digit_char_facts (h c (by simp))
    have e := accumDigits_digits (c :: t) h 0
    simp only [atoi, strtol, List.dropWhile, h3, List.head?_cons, Option.some.injEq, h4, h5,
      or_self, if_false, decide_False, Bool.false_eq_true]
    rw [if_neg (fun hc => absurd hc.1 (by decide)), e]
    have hr' : ((decimal_value (c :: t) : Nat) : Int) ≤ 2147483647 := by exact_mod_cast hr
    simp only [LONG_MAX]
    exact min_eq_right hr'

theorem find_shift (pre rest n : List Char) (k : Nat) :
    find (pre ++ rest) n (pre.length + k) = (find rest n k).map (fun i => pre.length + i) := by
  cases h : find rest n k with
  | none =>
    rw [Option.map_none', find_eq_none_iff]
    intro j hj hl hp
    have e : (pre ++ rest).drop j = rest.drop (j - pre.length) := by
      have : j = pre.length + (j - pre.length) := by omega
      rw [this, List.drop_append, ← this]
    rw [e] at hp
    simp only [List.length_append] at hl
    exact find_eq_none_iff.mp h (j - pre.length) (by omega) (by omega) hp
  | some i =>
    obtain ⟨⟨h1, h2, h3⟩, h4⟩ := find_eq_some_iff.mp h
    rw [Option.map_some', find_eq_some_iff]
    refine ⟨⟨by omega, by simp only [List.length_append]; omega, ?_⟩, fun j hj hji hp => ?_⟩
    · rw [List.drop_append]; exact h3
    · have e : (pre ++ rest).drop j = rest.drop (j - pre.length) := by
        have : j = pre.length + (j - pre.length) := by omega
        rw [this, List.drop_append, ← this]
      rw [e] at hp
      exact h4 (j - pre.length) (by omega) (by omega) hp

theorem find_first_occurrence {pre pat tail : List Char}
    (hfirst : ∀ j, j < pre.length → ¬ pat <+: (pre ++ pat ++ tail).drop j) :
    find (pre ++ pat ++ tail) pat 0 = some pre.length := by
  rw [find_eq_some_iff]
  refine ⟨⟨Nat.zero_le _, by simp only [List.length_append]; omega, ?_⟩, fun j _ hj => hfirst j hj⟩
  rw [List.append_assoc, List.drop_left]
  exact List.prefix_append _ _

theorem find_closing_quote {a post : List Char} (ha : '"' ∉ a) :
    find (a ++ '"' :: post) ['"'] 0 = some a.length := by
  rw [find_eq_some_iff]
  refine ⟨⟨Nat.zero_le _, by simp, ?_⟩, fun j _ hj hp => ?_⟩
  · rw [List.drop_left]; exact ⟨post, rfl⟩
  · rw [List.drop_append_of_le_length (by omega)] at hp
    obtain ⟨t, ht⟩ := hp
    have hne : a.drop j ≠ [] := by
      intro e
      have := congrArg List.length e
      simp only [List.length_drop, List.length_nil] at this
      omega
    obtain ⟨c, r, hcr⟩ := List.exists_cons_of_ne_nil hne
    rw [hcr] at ht
    simp only [List.cons_append, List.nil_append, List.cons.injEq] at ht
    have hc : c ∈ a := List.mem_of_mem_drop (by rw [hcr]; simp)
    exact ha (ht.1 ▸ hc)

theorem extract_json_int_of_split {json pre a post : List Char} (key : List Char)
    (hsplit : json = pre ++ json_key_pattern key ++ a ++ '"' :: post)
    (hfirst : ∀ j, j < pre.length → ¬ json_key_pattern key <+: json.drop j)
    (ha : '"' ∉ a) : extract_json_int_ json key = atoi a := by
  have e1 : json = pre ++ json_key_pattern key ++ (a ++ '"' :: post) := by
    rw [hsplit]; simp only [List.append_assoc]
  have f1 : find json (json_key_pattern key) 0 = some pre.length := by
    rw [e1]; exact find_first_occurrence (by rw [← e1]; exact hfirst)
  have f2 : find json ['"'] (pre.length + (json_key_pattern key).length)
      = some (pre.length + (json_key_pattern key).length + a.length) := by
    have := find_shift (pre ++ json_key_pattern key) (a ++ '"' :: post) ['"'] 0
    rw [find_closing_quote ha, ← e1] at this
    simpa using this
  have f3 : substr json (pre.length + (json_key_pattern key).length) a.length = a := by
    unfold substr
    rw [e1, ← List.length_append, List.drop_left, List.take_left]
  unfold extract_json_int_
  simp only [json_key_pattern] at f1 f2 f3
  simp only [f1, f2, Nat.add_sub_cancel_left, f3]

theorem find_none_of_not_infix {s n : List Char} (h : ¬ n <:+: s) : find s n 0 = none := by
  rw [find_eq_none_iff]
  intro j _ _ hp
  obtain ⟨t, ht⟩ := hp
  exact h ⟨s.take j, t, by rw [List.append_assoc, ht, List.take_append_drop]⟩

theorem process_json_eq (sinks : Sinks) (st : Component) (json : List Char) :
    process_json_ sinks st json
      = ((state_update sinks (level_update sinks st (extract_json_int_ json "top".toList)).1
            (extract_json_int_ json "state".toList)).1,
          (level_update sinks st (extract_json_int_ json "top".toList)).2
            ++ (state_update sinks (level_update sinks st (extract_json_int_ json "top".toList)).1
              (extract_json_int_ json "state".toList)).2) := by
  unfold process_json_ state_update level_update
  generalize extract_json_int_ json "top".toList = t
  generalize extract_json_int_ json "state".toList = s
  by_cases c1 : t ≥ 0 ∧ t ≠ st.last_top_ <;> by_cases c2 : s ≥ 0 ∧ s ≠ st.last_state_ <;>
    simp [c1, c2]

theorem extract_json_int_absent {json key : List Char} (h : field_absent json key) :
    extract_json_int_ json key = -1 := by
  rcases h with h | ⟨pre, tail, hsplit, hfirst, hq⟩
  · have f1 := find_none_of_not_infix h
    unfold extract_json_int_
    simp only [json_key_pattern] at f1
    simp only [f1]
  · have f1 : find json (json_key_pattern key) 0 = some pre.length := by
      rw [hsplit]; exact find_first_occurrence (by rw [← hsplit]; exact hfirst)
    have f2 : find json ['"'] (pre.length + (json_key_pattern key).length) = none := by
      have := find_shift (pre ++ json_key_pattern key) tail ['"'] 0
      rw [find_none_of_not_mem 0 hq, ← hsplit] at this
      simpa using this
    unfold extract_json_int_
    simp only [json_key_pattern] at f1 f2
    simp only [f1, f2]

theorem level_update_absent (sinks : Sinks) (st : Component) : level_update sinks st (-1) = (st, []) := by
  unfold level_update
  rw [if_neg (fun h => absurd h.1 (by decide))]

theorem state_update_absent (sinks : Sinks) (st : Component) : state_update sinks st (-1) = (st, []) := by
  unfold state_update
  rw [if_neg (fun h => absurd h.1 (by decide))]

theorem is_level_frame_cons (hex : List Char) :
    is_level_frame ('<' :: hex) = decide (hex.take 4 = "2053".toList ∧ 10 ≤ hex.length) := by
  simp [is_level_frame, substr]

theorem is_mode_frame_cons (hex : List Char) :
    is_mode_frame ('<' :: hex) = decide (hex.take 4 = "1053".toList ∧ 10 ≤ hex.length) := by
  simp [is_mode_frame, substr]

theorem other_frame_eq (sinks : Sinks) (st : Component) (hex : List Char)
    (hlevel : ¬ (hex.take 4 = "2053".toList ∧ 10 ≤ hex.length))
    (hmode : ¬ (hex.take 4 = "1053".toList ∧ 10 ≤ hex.length)) :
    process_hex_code_ sinks st ('<' :: hex) = (st, []) := by
  rw [process_hex_code_eq, is_level_frame_cons, is_mode_frame_cons, decide_eq_false hlevel,
    decide_eq_false hmode]
  rfl

theorem take_four_of_ignored {hex p : List Char} (hp : p ∈ IGNORED_PREFIXES) (hpre : p <+: hex) :
    hex.take 4 = p.take 4 ∧ p.take 4 ≠ "2053".toList ∧ p.take 4 ≠ "1053".toList := by
  obtain ⟨t, rfl⟩ := hpre
  have hl : 4 ≤ p.length := by
    simp only [IGNORED_PREFIXES, List.mem_cons, List.mem_singleton, List.not_mem_nil, or_false] at hp
    rcases hp with rfl | rfl | rfl | rfl | rfl | rfl | rfl | rfl <;> decide
  refine ⟨List.take_append_of_le_length hl, ?_⟩
  simp only [IGNORED_PREFIXES, List.mem_cons, List.mem_singleton, List.not_mem_nil, or_false] at hp
  rcases hp with rfl | rfl | rfl | rfl | rfl | rfl | rfl | rfl <;> decide

theorem level_update_last_top (sinks : Sinks) (st : Component) (v : Int) (hv : 0 ≤ v) :
    (level_update sinks st v).1.last_top_ = v := by
  unfold level_update
  by_cases c : v ≥ 0 ∧ v ≠ st.last_top_
  · simp only [if_pos c]
  · simp only [if_neg c]
    by_contra hne
    exact c ⟨hv, fun e => hne e.symm⟩

theorem level_update_same (sinks : Sinks) (st : Component) (v : Int) (h : st.last_top_ = v) :
    level_update sinks st v = (st, []) := by
  unfold level_update
  rw [if_neg (fun c => c.2 h.symm)]

theorem state_update_last_top (sinks : Sinks) (st : Component) (s : Int) :
    (state_update sinks st s).1.last_top_ = st.last_top_ := by
  unfold state_update
  split_ifs <;> rfl

theorem state_update_no_level (sinks : Sinks) (st : Component) (s x : Int) :
    Pub.tank_level x ∉ (state_update sinks st s).2 := by
  unfold state_update publish_state
  split_ifs <;> simp

theorem level_frame_payload (sinks : Sinks) (st : Component) (hex : List Char)
    (hp : hex.take 4 = "2053".toList) (hlen : 10 ≤ hex.length) :
    process_hex_code_ sinks st ('<' :: hex) = level_update sinks st (payload ('<' :: hex)) := by
  rw [process_hex_code_eq, is_level_frame_cons, decide_eq_true ⟨hp, hlen⟩]
  rfl

theorem mode_frame_payload (sinks : Sinks) (st : Component) (hex : List Char)
    (hp : hex.take 4 = "1053".toList) (hlen : 10 ≤ hex.length) :
    process_hex_code_ sinks st ('<' :: hex) = mode_update sinks st (payload ('<' :: hex)) := by
  have hl : ¬ (hex.take 4 = "2053".toList ∧ 10 ≤ hex.length) := by
    intro c
    rw [hp] at c
    exact absurd c.1 (by decide)
  rw [process_hex_code_eq, is_level_frame_cons, is_mode_frame_cons, decide_eq_false hl,
    decide_eq_true ⟨hp, hlen⟩]
  rfl

theorem status_str_of_row {r : ModeMapping} (h : r ∈ MODE_MAPPINGS) :
    status_str_of (r.code : Int) = r.status := by
  simp only [List.mem_cons, MODE_MAPPINGS, List.mem_singleton, List.not_mem_nil, or_false] at h
  rcases h with rfl | rfl | rfl | rfl | rfl | rfl <;> rfl

theorem status_text_of_mode_update (sinks : Sinks) (st : Component) (b : Int) (s : String)
    (h : Pub.status_text s ∈ (mode_update sinks st b).2) :
    status_str_of b ≠ st.last_status_ := by
  intro e
  simp only [mode_update, publish_state, e, ne_eq, not_true_eq_false, if_false,
    List.append_nil, List.mem_append] at h
  rcases h with (h | h) | h
  · split_ifs at h <;> simp at h
  · split_ifs at h <;> simp at h
  · split_ifs at h <;> simp at h

theorem refresh_after_eq (st : Component) (b : Int) :
    refresh_after st b
      = if b = 0x10 then true else if b = 0x01 ∨ b = 0x04 ∨ b = 0x08 then false
        else st.in_refresh_ := by
  unfold refresh_after
  simp only [find_mapping, MODE_MAPPINGS]
  split_ifs <;> simp_all
  all_goals omega

theorem level_mode_exclusive (code : List Char) (h : is_level_frame code = true) :
    is_mode_frame code = false := by
  simp only [is_level_frame, is_mode_frame, decide_eq_true_eq, decide_eq_false_iff_not] at h ⊢
  intro c
  rw [h.1] at c
  exact absurd c.1 (by decide)

theorem level_update_in_refresh (sinks : Sinks) (st : Component) (v : Int) :
    (level_update sinks st v).1.in_refresh_ = st.in_refresh_ := by
  unfold level_update
  split_ifs <;> rfl

theorem state_update_in_refresh (sinks : Sinks) (st : Component) (v : Int) :
    (state_update sinks st v).1.in_refresh_ = st.in_refresh_ := by
  unfold state_update
  split_ifs <;> rfl

theorem decode_in_refresh (sinks : Sinks) (st : Component) (r : Record) :
    (decode sinks st r).1.in_refresh_
      = if is_refresh_marker r then true else if is_idle_frame r then false
        else st.in_refresh_ := by
  cases r with
  | json j =>
    simp only [decode, is_refresh_marker, is_idle_frame, process_json_eq,
      state_update_in_refresh, level_update_in_refresh]
    rfl
  | hex hex =>
    simp only [decode, is_refresh_marker, is_idle_frame, process_hex_code_eq]
    by_cases hl : is_level_frame ('<' :: hex) = true
    · simp [hl, level_mode_exclusive _ hl, level_update_in_refresh]
    · by_cases hm : is_mode_frame ('<' :: hex) = true
      · simp [hl, hm, mode_update, refresh_after_eq]
      · simp [hl, hm]

theorem decode_all_append (sinks : Sinks) (st : Component) (xs ys : List Record) :
    decode_all sinks st (xs ++ ys)
      = ((decode_all sinks (decode_all sinks st xs).1 ys).1,
          (decode_all sinks st xs).2 ++ (decode_all sinks (decode_all sinks st xs).1 ys).2) := by
  induction xs generalizing st with
  | nil => simp [decode_all]
  | cons c t ih => simp [decode_all, ih, List.append_assoc]

theorem tracks_level_update (st : Component) (out : List Pub) (v : Int) (h : tracks st out) :
    tracks (level_update allSinks st v).1 (out ++ (level_update allSinks st v).2) := by
  obtain ⟨h1, h2, h3, h4, h5, h6⟩ := h
  unfold level_update
  by_cases c : v ≥ 0 ∧ v ≠ st.last_top_
  · simp only [if_pos c, tracks, last_published, publish_state, allSinks, if_true,
      List.filterMap_append, List.getLast?_append]
    simp [tank_level_of, mode_code_of, state_code_of, mode_text_of, status_text_of,
      source_text_of, last_published] at h1 h2 h3 h4 h5 h6 ⊢
    exact ⟨h2, h3, h4, h5, h6⟩
  · simp only [if_neg c, List.append_nil]
    exact ⟨h1, h2, h3, h4, h5, h6⟩

theorem tracks_state_update (st : Component) (out : List Pub) (v : Int) (h : tracks st out) :
    tracks (state_update allSinks st v).1 (out ++ (state_update allSinks st v).2) := by
  obtain ⟨h1, h2, h3, h4, h5, h6⟩ := h
  unfold state_update
  by_cases c : v ≥ 0 ∧ v ≠ st.last_state_
  · simp only [if_pos c, tracks, last_published, publish_state, allSinks, if_true,
      List.filterMap_append, List.getLast?_append]
    simp [tank_level_of, mode_code_of, state_code_of, mode_text_of, status_text_of,
      source_text_of, last_published] at h1 h2 h3 h4 h5 h6 ⊢
    exact ⟨h1, h2, h4, h5, h6⟩
  · simp only [if_neg c, List.append_nil]
    exact ⟨h1, h2, h3, h4, h5, h6⟩

theorem tracks_mode_update (st : Component) (out : List Pub) (b : Int) (h : tracks st out) :
    tracks (mode_update allSinks st b).1 (out ++ (mode_update allSinks st b).2) := by
  obtain ⟨h1, h2, h3, h4, h5, h6⟩ := h
  unfold mode_update
  generalize mode_str_of st b = ms
  generalize status_str_of b = ss
  generalize source_str_of b = so
  generalize refresh_after st b = rf
  obtain ⟨buf, lt, lm, ls, lst, lso, lms, ir⟩ := st
  simp only at h1 h2 h3 h4 h5 h6
  simp only [tracks, last_published, publish_state, allSinks, if_true,
      List.filterMap_append, List.getLast?_append]
  simp only [last_published] at h1 h2 h3 h4 h5 h6
  generalize (List.filterMap tank_level_of out).getLast? = o1 at h1 ⊢
  generalize (List.filterMap mode_code_of out).getLast? = o2 at h2 ⊢
  generalize (List.filterMap state_code_of out).getLast? = o3 at h3 ⊢
  generalize (List.filterMap mode_text_of out).getLast? = o4 at h4 ⊢
  generalize (List.filterMap status_text_of out).getLast? = o5 at h5 ⊢
  generalize (List.filterMap source_text_of out).getLast? = o6 at h6 ⊢
  subst h1 h2 h3 h4 h5 h6
  by_cases c1 : b = o2.getD (-1) <;> by_cases c2 : ms = o4.getD "" <;>
    by_cases c3 : ss = o5.getD "" <;> by_cases c4 : so = o6.getD "" <;>
    simp [c1, c2, c3, c4, tank_level_of, mode_code_of, state_code_of, mode_text_of,
      status_text_of, source_text_of]

theorem tracks_decode (st : Component) (out : List Pub) (r : Record) (h : tracks st out) :
    tracks (decode allSinks st r).1 (out ++ (decode allSinks st r).2) := by
  cases r with
  | json j =>
    simp only [decode, process_json_eq, ← List.append_assoc]
    exact tracks_state_update _ _ _ (tracks_level_update _ _ _ h)
  | hex hex =>
    simp only [decode, process_hex_code_eq]
    split_ifs
    · exact tracks_level_update _ _ _ h
    · exact tracks_mode_update _ _ _ h
    · simpa using h

theorem tracks_decode_all (rs : List Record) :
    ∀ (st : Component) (out : List Pub), tracks st out →
      tracks (decode_all allSinks st rs).1 (out ++ (decode_all allSinks st rs).2) := by
  induction rs with
  | nil => intro st out h; simpa [decode_all] using h
  | cons r t ih =>
    intro st out h
    have := ih _ _ (tracks_decode st out r h)
    simpa [decode_all, List.append_assoc] using this

theorem process_json_buffer (sinks : Sinks) (st : Component) (json : List Char) :
    (process_json_ sinks st json).1.buffer_ = st.buffer_ := by
  unfold process_json_
  simp only
  split_ifs <;> rfl

/-- The pending buffer after one byte, in closed form. -/
theorem feed_buffer (sinks : Sinks) (st : Component) (c : Char) :
    (feed sinks st c).1.buffer_
      = if c = '\r' ∨ c = '\n' then []
        else if c = '<' then ['<']
        else if has_json_record (st.buffer_ ++ [c]) = true then []
        else if (st.buffer_ ++ [c]).length > 500 then []
        else st.buffer_ ++ [c] := by
  unfold feed
  by_cases h1 : c = '\r' ∨ c = '\n'
  · rw [if_pos h1, if_pos h1]
    by_cases hb : st.buffer_ = []
    · rw [if_neg (by simp [hb])]; exact hb
    · rw [if_pos hb]
  · rw [if_neg h1, if_neg h1]
    by_cases h2 : c = '<'
    · rw [if_pos h2, if_pos h2]
    · rw [if_neg h2, if_neg h2]
      unfold has_json_record
      cases f1 : find (st.buffer_ ++ [c]) JSON_MARKER 0 with
      | none =>
        simp only [f1]
        split_ifs <;> simp_all
      | some i =>
        cases f2 : find (st.buffer_ ++ [c]) "\x7d\x7d".toList i with
        | none =>
          simp only [f1, f2]
          split_ifs <;> simp_all
        | some j =>
          simp only [f1, f2]
          simp

theorem loop_snoc (sinks : Sinks) (st : Component) (bytes : List Char) (c : Char) :
    (loop sinks st (bytes ++ [c])).1 = (feed sinks (loop sinks st bytes).1 c).1 := by
  rw [loop_append]
  simp [loop]

theorem feed_no_json_record (sinks : Sinks) (st : Component) (c : Char) :
    has_json_record (feed sinks st c).1.buffer_ = false := by
  rw [feed_buffer]
  split_ifs with h1 h2 h3 h4
  · decide
  · decide
  · decide
  · decide
  · simpa using h3

theorem process_buffer_other (sinks : Sinks) (st : Component)
    (hj : has_json_record st.buffer_ = false) (hh : st.buffer_.head? ≠ some '<') :
    process_buffer_ sinks st = (st, []) := by
  unfold process_buffer_
  by_cases hb : st.buffer_ = []
  · rw [if_pos hb]
  · rw [if_neg hb, if_neg hh]
    unfold has_json_record at hj
    cases f1 : find st.buffer_ JSON_MARKER 0 with
    | none => rfl
    | some i =>
      rw [f1] at hj
      change (find st.buffer_ "\x7d\x7d".toList i).isSome = false at hj
      cases f2 : find st.buffer_ "\x7d\x7d".toList i with
      | none => simp only [f2]
      | some j => rw [f2] at hj; exact absurd hj (by simp)

theorem feed_boundary_other (sinks : Sinks) (st : Component) (b : Char)
    (hj : has_json_record st.buffer_ = false) (hh : st.buffer_.head? ≠ some '<')
    (hb : b = '\r' ∨ b = '\n' ∨ b = '<') :
    feed sinks st b = (set_buffer st (if b = '<' then ['<'] else []), []) := by
  have hp := process_buffer_other sinks st hj hh
  unfold feed
  by_cases h1 : b = '\r' ∨ b = '\n'
  · have h2 : b ≠ '<' := by rcases h1 with rfl | rfl <;> decide
    rw [if_pos h1, if_neg h2]
    by_cases he : st.buffer_ = []
    · rw [if_neg (by simp [he])]
      obtain ⟨b0, _, _, _, _, _, _, _⟩ := st
      simp only at he
      subst he
      rfl
    · rw [if_pos he, hp]
      rfl
  · have h2 : b = '<' := by tauto
    rw [if_neg h1, if_pos h2, if_pos h2, hp]
    split_ifs <;> rfl

theorem find_mapping_mem {tbl : List ModeMapping} {b : Int} {m : ModeMapping}
    (h : find_mapping tbl b = some m) : m ∈ tbl := by
  induction tbl with
  | nil => simp [find_mapping] at h
  | cons r t ih =>
    unfold find_mapping at h
    split_ifs at h with c
    · simp only [Option.some.injEq] at h
      simp [h]
    · exact List.mem_cons_of_mem _ (ih h)

theorem row_texts {m : ModeMapping} (h : m ∈ MODE_MAPPINGS) :
    m.mode ∈ ["Normal", "Holiday", "Refresh"] ∧ m.status ∈ ["Idle", "Filling", "Draining"]
      ∧ m.source ∈ ["Rainwater", "Mains"] := by
  simp only [List.mem_cons, MODE_MAPPINGS, List.mem_singleton, List.not_mem_nil, or_false] at h
  rcases h with rfl | rfl | rfl | rfl | rfl | rfl <;> decide

theorem mode_str_of_valid (st : Component) (b : Int) :
    mode_str_of st b ∈ ["Normal", "Holiday", "Refresh", "Unknown"] := by
  unfold mode_str_of
  cases h : find_mapping MODE_MAPPINGS b with
  | none => simp
  | some m =>
    have := (row_texts (find_mapping_mem h)).1
    simp only
    split_ifs
    · simp
    · simp only [List.mem_cons, List.mem_singleton, List.not_mem_nil, or_false] at this ⊢
      tauto

theorem status_str_of_valid (b : Int) :
    status_str_of b ∈ ["Idle", "Filling", "Draining", "Unknown"] := by
  unfold status_str_of
  cases h : find_mapping MODE_MAPPINGS b with
  | none => simp
  | some m =>
    have := (row_texts (find_mapping_mem h)).2.1
    simp only [List.mem_cons, List.mem_singleton, List.not_mem_nil, or_false] at this ⊢
    tauto

theorem source_str_of_valid (b : Int) :
    source_str_of b ∈ ["Rainwater", "Mains", "Unknown"] := by
  unfold source_str_of
  cases h : find_mapping MODE_MAPPINGS b with
  | none => simp
  | some m =>
    have := (row_texts (find_mapping_mem h)).2.2
    simp only [List.mem_cons, List.mem_singleton, List.not_mem_nil, or_false] at this ⊢
    tauto

theorem mode_update_valid (sinks : Sinks) (st : Component) (b : Int) :
    ∀ p ∈ (mode_update sinks st b).2, valid_pub p = true := by
  intro p hp
  have h1 := mode_str_of_valid st b
  have h2 := status_str_of_valid b
  have h3 := source_str_of_valid b
  simp only [mode_update, publish_state, List.mem_append] at hp
  rcases hp with ((hp | hp) | hp) | hp
  · split_ifs at hp <;> simp at hp
    subst hp; rfl
  · split_ifs at hp <;> simp at hp
    subst hp; simpa [valid_pub] using h1
  · split_ifs at hp <;> simp at hp
    subst hp; simpa [valid_pub] using h2
  · split_ifs at hp <;> simp at hp
    subst hp; simpa [valid_pub] using h3

theorem level_update_valid (sinks : Sinks) (st : Component) (v : Int) :
    ∀ p ∈ (level_update sinks st v).2, valid_pub p = true := by
  intro p hp
  simp only [level_update, publish_state] at hp
  split_ifs at hp <;> simp at hp
  subst hp; rfl

theorem state_update_valid (sinks : Sinks) (st : Component) (v : Int) :
    ∀ p ∈ (state_update sinks st v).2, valid_pub p = true := by
  intro p hp
  simp only [state_update, publish_state] at hp
  split_ifs at hp <;> simp at hp
  subst hp; rfl

theorem process_hex_code_valid (sinks : Sinks) (st : Component) (code : List Char) :
    ∀ p ∈ (process_hex_code_ sinks st code).2, valid_pub p = true := by
  rw [process_hex_code_eq]
  split_ifs
  · exact level_update_valid sinks st _
  · exact mode_update_valid sinks st _
  · simp

theorem process_json_valid (sinks : Sinks) (st : Component) (json : List Char) :
    ∀ p ∈ (process_json_ sinks st json).2, valid_pub p = true := by
  rw [process_json_eq]
  intro p hp
  rcases List.mem_append.mp hp with h | h
  · exact level_update_valid sinks st _ p h
  · exact state_update_valid sinks _ _ p h

theorem process_buffer_valid (sinks : Sinks) (st : Component) :
    ∀ p ∈ (process_buffer_ sinks st).2, valid_pub p = true := by
  unfold process_buffer_
  split_ifs
  · simp
  · exact process_hex_code_valid sinks st _
  · cases f1 : find st.buffer_ JSON_MARKER 0 with
    | none => simp
    | some i =>
      cases f2 : find st.buffer_ "\x7d\x7d".toList i with
      | none => simp only [f2]; simp
      | some j => simp only [f2]; exact process_json_valid sinks st _

theorem feed_valid (sinks : Sinks) (st : Component) (c : Char) :
    ∀ p ∈ (feed sinks st c).2, valid_pub p = true := by
  unfold feed
  by_cases h1 : c = '\r' ∨ c = '\n'
  · rw [if_pos h1]
    split_ifs
    · exact process_buffer_valid sinks st
    · simp
  · rw [if_neg h1]
    by_cases h2 : c = '<'
    · rw [if_pos h2]
      split_ifs
      · exact process_buffer_valid sinks st
      · simp
    · rw [if_neg h2]
      cases f1 : find (st.buffer_ ++ [c]) JSON_MARKER 0 with
      | none => simp only [f1]; split_ifs <;> simp
      | some i =>
        cases f2 : find (st.buffer_ ++ [c]) "\x7d\x7d".toList i with
        | none => simp only [f1, f2]; split_ifs <;> simp
        | some j =>
          simp only [f1, f2]
          split_ifs <;> exact process_json_valid sinks _ _

theorem state_update_set_buffer (sinks : Sinks) (st : Component) (buf : List Char) (v : Int) :
    state_update sinks (set_buffer st buf) v
      = (set_buffer (state_update sinks st v).1 buf, (state_update sinks st v).2) := by
  unfold state_update set_buffer
  by_cases c : v ≥ 0 ∧ v ≠ st.last_state_
  · simp only [if_pos c]
  · simp only [if_neg c]

theorem process_json_set_buffer (sinks : Sinks) (st : Component) (buf json : List Char) :
    process_json_ sinks (set_buffer st buf) json
      = (set_buffer (process_json_ sinks st json).1 buf, (process_json_ sinks st json).2) := by
  simp only [process_json_eq, level_update_set_buffer, state_update_set_buffer]

theorem feed_json_dispatch (sinks : Sinks) (st : Component) (c : Char) (i k : Nat)
    (hc : is_boundary c = false)
    (f1 : find (st.buffer_ ++ [c]) JSON_MARKER 0 = some i)
    (f2 : find (st.buffer_ ++ [c]) "\x7d\x7d".toList i = some k) :
    feed sinks st c
      = (set_buffer (process_json_ sinks st (substr (st.buffer_ ++ [c]) i (k - i + 2))).1 [],
          (process_json_ sinks st (substr (st.buffer_ ++ [c]) i (k - i + 2))).2) := by
  simp only [is_boundary, Bool.or_eq_false_iff, decide_eq_false_iff_not] at hc
  obtain ⟨⟨c1, c2⟩, c3⟩ := hc
  have e := process_json_set_buffer sinks st (st.buffer_ ++ [c])
    (substr (st.buffer_ ++ [c]) i (k - i + 2))
  unfold set_buffer at e
  unfold feed
  rw [if_neg (by simp [c1, c2]), if_neg c3]
  simp only [f1, f2, e]
  rw [if_neg (by simp)]
  rfl

theorem marker_getElem_ne (m : Nat) (h1 : 1 ≤ m) (h2 : m < 13) :
    JSON_MARKER[m]? ≠ some '\x7b' := by
  interval_cases m <;> decide

theorem no_marker_before {h x : List Char} (hh : ¬ JSON_MARKER <:+: h) (i : Nat)
    (hi : i < h.length) : ¬ JSON_MARKER <+: (h ++ '\x7b' :: x).drop i := by
  intro hp
  rw [List.drop_append_of_le_length (by omega)] at hp
  by_cases hm : 13 ≤ (h.drop i).length
  · have h1 : JSON_MARKER <+: h.drop i :=
      List.prefix_of_prefix_length_le hp (List.prefix_append _ _) (by simpa [JSON_MARKER] using hm)
    obtain ⟨t, ht⟩ := h1
    exact hh ⟨h.take i, t, by rw [List.append_assoc, ht, List.take_append_drop]⟩
  · have h13 : JSON_MARKER.length = 13 := rfl
    have hd : 1 ≤ (h.drop i).length := by rw [List.length_drop]; omega
    have e := List.prefix_iff_eq_take.mp hp
    have hg : JSON_MARKER[(h.drop i).length]? = some '\x7b' := by
      have e2 := congrArg (fun l => l[(h.drop i).length]?) e
      simp only at e2
      rw [e2, h13, List.getElem?_take_of_lt (by omega),
        List.getElem?_append_right (Nat.le_refl _)]
      simp
    exact marker_getElem_ne _ hd (by omega) hg

theorem marker_not_in_frame {body : List Char} (hbm : ¬ JSON_MARKER <:+: body) :
    ¬ JSON_MARKER <:+: '<' :: body := by
  intro h
  rcases List.infix_cons_iff.mp h with h1 | h1
  · obtain ⟨t, ht⟩ := h1
    have h2 : (JSON_MARKER ++ t).head? = some '\x7b' := rfl
    rw [ht] at h2
    simp only [List.head?_cons, Option.some.injEq] at h2
    exact absurd h2 (by decide)
  · exact hbm h1

theorem set_buffer_self (st : Component) (buf : List Char) (h : st.buffer_ = buf) :
    set_buffer st buf = st := by
  obtain ⟨b0, _, _, _, _, _, _, _⟩ := st
  simp only at h
  subst h
  rfl

/-- What `process_buffer_` does: nothing, or one call of a decoder. -/
theorem process_buffer_cases (sinks : Sinks) (st : Component) :
    process_buffer_ sinks st = (st, [])
    ∨ (∃ code, process_buffer_ sinks st = process_hex_code_ sinks st code)
    ∨ (∃ json, process_buffer_ sinks st = process_json_ sinks st json) := by
  unfold process_buffer_
  split_ifs
  · exact Or.inl rfl
  · exact Or.inr (Or.inl ⟨_, rfl⟩)
  · cases f1 : find st.buffer_ JSON_MARKER 0 with
    | none => exact Or.inl rfl
    | some i =>
      cases f2 : find st.buffer_ "\x7d\x7d".toList i with
      | none => simp only [f2]; simp
      | some j => simp only [f2]; exact Or.inr (Or.inr ⟨_, rfl⟩)

/-- What one byte does to the decoder: nothing, or one call of a decoder; the buffer is
replaced. -/
theorem feed_cases (sinks : Sinks) (st : Component) (c : Char) :
    ∃ buf, feed sinks st c = (set_buffer st buf, [])
      ∨ (∃ code, feed sinks st c
          = (set_buffer (process_hex_code_ sinks st code).1 buf,
              (process_hex_code_ sinks st code).2))
      ∨ (∃ json, feed sinks st c
          = (set_buffer (process_json_ sinks st json).1 buf, (process_json_ sinks st json).2)) := by
  have hb : ∀ buf, (∃ b', ({ (process_buffer_ sinks st).1 with buffer_ := buf },
        (process_buffer_ sinks st).2) = (set_buffer st b', ([] : List Pub)))
      ∨ (∃ code, ({ (process_buffer_ sinks st).1 with buffer_ := buf },
        (process_buffer_ sinks st).2) = (set_buffer (process_hex_code_ sinks st code).1 buf,
              (process_hex_code_ sinks st code).2))
      ∨ (∃ json, ({ (process_buffer_ sinks st).1 with buffer_ := buf },
        (process_buffer_ sinks st).2)
          = (set_buffer (process_json_ sinks st json).1 buf, (process_json_ sinks st json).2)) := by
    intro buf
    rcases process_buffer_cases sinks st with h | ⟨code, h⟩ | ⟨json, h⟩
    · exact Or.inl ⟨buf, by rw [h]; rfl⟩
    · exact Or.inr (Or.inl ⟨code, by rw [h]; rfl⟩)
    · exact Or.inr (Or.inr ⟨json, by rw [h]; rfl⟩)
  unfold feed
  by_cases h1 : c = '\r' ∨ c = '\n'
  · rw [if_pos h1]
    by_cases he : st.buffer_ = []
    · rw [if_neg (by simp [he])]
      exact ⟨[], Or.inl (by rw [set_buffer_self st [] he])⟩
    · rw [if_pos he]
      rcases hb [] with ⟨b', h⟩ | h | h
      · exact ⟨b', Or.inl h⟩
      · exact ⟨[], Or.inr (Or.inl h)⟩
      · exact ⟨[], Or.inr (Or.inr h)⟩
  · rw [if_neg h1]
    by_cases h2 : c = '<'
    · rw [if_pos h2]
      by_cases he : st.buffer_ = []
      · rw [if_neg (by simp [he])]
        exact ⟨['<'], Or.inl rfl⟩
      · rw [if_pos he]
        rcases process_buffer_cases sinks st with h | ⟨code, h⟩ | ⟨json, h⟩
        · exact ⟨['<'], Or.inl (by rw [h]; rfl)⟩
        · exact ⟨['<'], Or.inr (Or.inl ⟨code, by rw [h]; rfl⟩)⟩
        · exact ⟨['<'], Or.inr (Or.inr ⟨json, by rw [h]; rfl⟩)⟩
    · rw [if_neg h2]
      cases f1 : find (st.buffer_ ++ [c]) JSON_MARKER 0 with
      | none =>
        simp only [f1]
        split_ifs
        · exact ⟨[], Or.inl rfl⟩
        · exact ⟨st.buffer_ ++ [c], Or.inl rfl⟩
      | some i =>
        cases f2 : find (st.buffer_ ++ [c]) "\x7d\x7d".toList i with
        | none =>
          simp only [f1, f2]
          split_ifs
          · exact ⟨[], Or.inl rfl⟩
          · exact ⟨st.buffer_ ++ [c], Or.inl rfl⟩
        | some k =>
          have e := process_json_set_buffer sinks st (st.buffer_ ++ [c])
            (substr (st.buffer_ ++ [c]) i (k - i + 2))
          unfold set_buffer at e
          simp only [f1, f2, e]
          rw [if_neg (by simp)]
          exact ⟨[], Or.inr (Or.inr ⟨_, rfl⟩)⟩

theorem tracks_process_hex_code (st : Component) (out : List Pub) (code : List Char)
    (h : tracks st out) :
    tracks (process_hex_code_ allSinks st code).1 (out ++ (process_hex_code_ allSinks st code).2) := by
  simp only [process_hex_code_eq]
  split_ifs
  · exact tracks_level_update _ _ _ h
  · exact tracks_mode_update _ _ _ h
  · simpa using h

theorem tracks_process_json (st : Component) (out : List Pub) (json : List Char)
    (h : tracks st out) :
    tracks (process_json_ allSinks st json).1 (out ++ (process_json_ allSinks st json).2) := by
  simp only [process_json_eq, ← List.append_assoc]
  exact tracks_state_update _ _ _ (tracks_level_update _ _ _ h)

theorem tracks_feed (st : Component) (out : List Pub) (c : Char) (h : tracks st out) :
    tracks (feed allSinks st c).1 (out ++ (feed allSinks st c).2) := by
  obtain ⟨buf, e | ⟨code, e⟩ | ⟨json, e⟩⟩ := feed_cases allSinks st c
  · rw [e]; simpa using h
  · rw [e]; exact tracks_process_hex_code st out code h
  · rw [e]; exact tracks_process_json st out json h

theorem tracks_loop (bytes : List Char) :
    ∀ (st : Component) (out : List Pub), tracks st out →
      tracks (loop allSinks st bytes).1 (out ++ (loop allSinks st bytes).2) := by
  induction bytes with
  | nil => intro st out h; simpa [loop] using h
  | cons c t ih =>
    intro st out h
    have := ih _ _ (tracks_feed st out c h)
    simpa [loop, List.append_assoc] using this

/-- An occurrence test that holds at every index up to the length holds at every index. -/
theorem only_at_end_of_bounded {j n : List Char} (hn : n ≠ [])
    (h : ∀ k, k < j.length + 1 → (n <+: j.drop k ↔ k + 2 = j.length)) :
    ∀ k, n <+: j.drop k ↔ k + 2 = j.length := by
  intro k
  by_cases hk : k < j.length + 1
  · exact h k hk
  · constructor
    · intro hp
      rw [List.drop_eq_nil_of_le (by omega)] at hp
      exact absurd (List.prefix_nil.mp hp) hn
    · intro e; omega

/-! ## Results -/

/-- Claim C1 (incremental-feed equivalence). Two ways of cutting the same byte sequence into
consecutive chunks, each chunk consumed by one call of `loop()`, give the same sequence of
publish calls and the same final component state (buffer and decoder fields), from any
starting state and for any sensor configuration. -/
theorem incremental_feed_equivalence (sinks : Sinks) (st : Component)
    (chunks₁ chunks₂ : List (List Char)) (h : chunks₁.flatten = chunks₂.flatten) :
    polls sinks st chunks₁ = polls sinks st chunks₂ := by
  rw [polls_eq_loop, polls_eq_loop, h]

/-- Witness for C1: a stream fed one byte per poll and as one bulk chunk. -/
theorem incremental_feed_equivalence_witness :
    polls allSinks Component.fresh ("<2053328000\r<10531000".toList.map fun b => [b])
      = polls allSinks Component.fresh ["<2053328000\r<10531000".toList] :=
  incremental_feed_equivalence allSinks Component.fresh _ _ (by decide)

/-- Claim C2. Let `body` have at most 499 bytes, none of them CR, LF or `<`, with no JSON
record (marker followed by `}}`) in `<` + `body`, and let the buffer be empty. Then
feeding `<` + `body` only fills the buffer: nothing is published and no decoder field
changes. The boundary byte `b` that follows has exactly the effect of one call of
`process_hex_code_` on `<` + `body`, and leaves the buffer empty (CR, LF) or equal to `<`
(for `<`). A CR or LF met with an empty buffer changes nothing and publishes nothing, so
the pair CR LF after the frame has the effect of a single dispatch. -/
theorem hex_frame_dispatched_once_at_boundary (sinks : Sinks) (st : Component)
    (body : List Char) (b : Char)
    (hempty : st.buffer_ = []) (hlen : body.length ≤ 499)
    (hbody : ∀ c ∈ body, c ≠ '\r' ∧ c ≠ '\n' ∧ c ≠ '<')
    (hjson : has_json_record ('<' :: body) = false)
    (hb : b = '\r' ∨ b = '\n' ∨ b = '<') :
    loop sinks st ('<' :: body) = (set_buffer st ('<' :: body), [])
    ∧ feed sinks (set_buffer st ('<' :: body)) b
        = (set_buffer (process_hex_code_ sinks st ('<' :: body)).1 (if b = '<' then ['<'] else []),
            (process_hex_code_ sinks st ('<' :: body)).2)
    ∧ loop sinks st ('<' :: body ++ [b])
        = (set_buffer (process_hex_code_ sinks st ('<' :: body)).1 (if b = '<' then ['<'] else []),
            (process_hex_code_ sinks st ('<' :: body)).2)
    ∧ (∀ (st' : Component) (c : Char), st'.buffer_ = [] → c = '\r' ∨ c = '\n' →
        feed sinks st' c = (st', []))
    ∧ loop sinks st ('<' :: body ++ ['\r', '\n'])
        = (set_buffer (process_hex_code_ sinks st ('<' :: body)).1 [],
            (process_hex_code_ sinks st ('<' :: body)).2) := by
  have h1 := loop_hex_body sinks st body hempty hlen hbody hjson
  have h2 := feed_boundary_hex sinks st body b hb
  have h3 : ∀ (st' : Component) (c : Char), st'.buffer_ = [] → c = '\r' ∨ c = '\n' →
      feed sinks st' c = (st', []) := fun st' c he hc => feed_boundary_empty sinks st' c he hc
  refine ⟨h1, h2, ?_, h3, ?_⟩
  · rw [loop_append, h1]
    simp only [loop, h2, List.nil_append, List.append_nil]
  · have h4 := feed_boundary_hex sinks st body '\r' (Or.inl rfl)
    rw [if_neg (by decide)] at h4
    rw [loop_append, h1]
    simp only [loop, h4, List.nil_append, List.append_nil]
    rw [h3 _ '\n' rfl (Or.inr rfl)]
    simp

/-- Witness for C2: the frame `<2053328000` followed by CR LF. -/
theorem hex_frame_dispatched_once_at_boundary_witness :
    loop allSinks Component.fresh ('<' :: "2053328000".toList)
        = (set_buffer Component.fresh ('<' :: "2053328000".toList), [])
    ∧ loop allSinks Component.fresh ('<' :: "2053328000".toList ++ ['\r', '\n'])
        = (set_buffer
            (process_hex_code_ allSinks Component.fresh ('<' :: "2053328000".toList)).1 [],
            (process_hex_code_ allSinks Component.fresh ('<' :: "2053328000".toList)).2) :=
  have h := hex_frame_dispatched_once_at_boundary allSinks Component.fresh "2053328000".toList '\r'
    rfl (by decide) (by decide) (by decide) (by decide)
  ⟨h.1, h.2.2.2.2⟩

/-- Claim C3. For a record `<` + `hex` where `hex` starts with `2053`, has length at least
10 and carries hex digits `h`, `l` (either case) at offsets 4 and 5, and a decoder whose
last published level differs from `v = 16 * value h + value l`: with the tank-level sensor
configured, `process_hex_code_` makes exactly one publish call, `v` on the tank-level
sensor, sets `last_top_` to `v` and changes no other field. -/
theorem level_frame_publishes_changed_level (sinks : Sinks) (st : Component) (hex : List Char)
    (h l : Char) (x y : Nat)
    (hp : hex.take 4 = "2053".toList) (hlen : 10 ≤ hex.length)
    (h4 : hex[4]? = some h) (h5 : hex[5]? = some l)
    (hh : digitVal h = some x) (hx : x < 16) (hl : digitVal l = some y) (hy : y < 16)
    (hsink : sinks.tank_level_sensor_ = true)
    (hne : st.last_top_ ≠ 16 * (x : Int) + y) :
    process_hex_code_ sinks st ('<' :: hex)
      = ({ st with last_top_ := 16 * (x : Int) + y }, [Pub.tank_level (16 * (x : Int) + y)]) := by
  rw [level_frame_eq sinks st hp hlen h4 h5, hex_to_int_two_digits hh hx hl hy, level_update,
    if_pos ⟨by omega, fun e => hne e.symm⟩, hsink]
  rfl

/-- Witness for C3: the frame `<2053aF8000` (level 0xAF) on a fresh decoder. -/
theorem level_frame_publishes_changed_level_witness :
    process_hex_code_ allSinks Component.fresh ('<' :: "2053aF8000".toList)
      = ({ Component.fresh with last_top_ := 16 * ((10 : Nat) : Int) + (15 : Nat) },
          [Pub.tank_level (16 * ((10 : Nat) : Int) + (15 : Nat))]) :=
  level_frame_publishes_changed_level allSinks Component.fresh "2053aF8000".toList 'a' 'F' 10 15
    (by decide) (by decide) (by decide) (by decide) (by decide) (by decide) (by decide) (by decide)
    (by decide) (by decide)

/-- Claim C4 (idempotence of the change filter). For every decoder state and every record,
decoding the record a second time right after the first publishes nothing and leaves
the state as the first decode left it, both for `process_hex_code_` and for
`process_json_`. From a fresh decoder the frame `<2053328000` publishes level 50 once and
the same frame again publishes nothing. -/
theorem change_filter_idempotent (sinks : Sinks) (st : Component) (hex json : List Char) :
    process_hex_code_ sinks (process_hex_code_ sinks st ('<' :: hex)).1 ('<' :: hex)
        = ((process_hex_code_ sinks st ('<' :: hex)).1, [])
    ∧ process_json_ sinks (process_json_ sinks st json).1 json
        = ((process_json_ sinks st json).1, [])
    ∧ process_hex_code_ allSinks Component.fresh "<2053328000".toList
        = ({ Component.fresh with last_top_ := 50 }, [Pub.tank_level 50])
    ∧ process_hex_code_ allSinks { Component.fresh with last_top_ := 50 } "<2053328000".toList
        = ({ Component.fresh with last_top_ := 50 }, []) :=
  ⟨process_hex_code_idem sinks st ('<' :: hex), process_json_idem sinks st json, by decide, by decide⟩

/-- Claim C5. For a record `<` + `hex` where `hex` starts with `1053`, has length at least
10 and carries the byte `16 * x + y` as hex digits at offsets 4 and 5: after
`process_hex_code_` the three text fields are all `Unknown` when the byte is none of the
table codes 0x00, 0x01, 0x04, 0x08, 0x0C, 0x10; otherwise status and source are those of
the first table row with that code, and the mode is `Refresh` when the byte is 0x00 and
`in_refresh_` is set, else the mode of that row. -/
theorem mode_frame_text_values (sinks : Sinks) (st : Component) (hex : List Char)
    (h l : Char) (x y : Nat)
    (hp : hex.take 4 = "1053".toList) (hlen : 10 ≤ hex.length)
    (h4 : hex[4]? = some h) (h5 : hex[5]? = some l)
    (hh : digitVal h = some x) (hx : x < 16) (hl : digitVal l = some y) (hy : y < 16) :
    MODE_MAPPINGS.map ModeMapping.code = [0x00, 0x01, 0x04, 0x08, 0x0C, 0x10]
    ∧ (16 * x + y ∉ [0x00, 0x01, 0x04, 0x08, 0x0C, 0x10] →
        (process_hex_code_ sinks st ('<' :: hex)).1.last_mode_str_ = "Unknown"
        ∧ (process_hex_code_ sinks st ('<' :: hex)).1.last_status_ = "Unknown"
        ∧ (process_hex_code_ sinks st ('<' :: hex)).1.last_source_ = "Unknown")
    ∧ (∀ pre row post, MODE_MAPPINGS = pre ++ row :: post → row.code = 16 * x + y →
        (∀ r ∈ pre, r.code ≠ 16 * x + y) →
        (process_hex_code_ sinks st ('<' :: hex)).1.last_status_ = row.status
        ∧ (process_hex_code_ sinks st ('<' :: hex)).1.last_source_ = row.source
        ∧ (process_hex_code_ sinks st ('<' :: hex)).1.last_mode_str_
            = if 16 * x + y = 0 ∧ st.in_refresh_ = true then "Refresh" else row.mode) := by
  rw [mode_frame_eq sinks st hp hlen h4 h5, hex_to_int_two_digits hh hx hl hy]
  have hb : (16 * (x : Int) + y) = ((16 * x + y : Nat) : Int) := by push_cast; rfl
  rw [hb]
  generalize 16 * x + y = b
  refine ⟨rfl, fun hnot => ?_, fun pre row post ht hrow hpre => ?_⟩
  · have hn : find_mapping MODE_MAPPINGS (b : Int) = none := by
      rw [find_mapping_none]
      intro r hr
      simp only [List.mem_cons, MODE_MAPPINGS, List.mem_cons, List.mem_singleton, List.not_mem_nil, or_false] at hr
      simp only [List.mem_cons, List.mem_singleton, List.not_mem_nil, or_false, not_or] at hnot
      rcases hr with rfl | rfl | rfl | rfl | rfl | rfl <;> simp <;> omega
    simp [mode_update, mode_str_of, status_str_of, source_str_of, hn]
  · have hf : find_mapping MODE_MAPPINGS (b : Int) = some row :=
      find_mapping_first ht (by exact_mod_cast hrow) (fun r hr => by exact_mod_cast hpre r hr)
    refine ⟨by simp [mode_update, status_str_of, hf], by simp [mode_update, source_str_of, hf], ?_⟩
    simp only [mode_update, mode_str_of, hf]
    by_cases hz : b = 0
    · subst hz
      have : refresh_after st 0 = st.in_refresh_ := rfl
      simp [this]
    · have hz2 : ¬ ((b : Int) = 0) := by exact_mod_cast hz
      simp [hz, hz2]

/-- Witness for C5: the frame `<10530c8000` on a fresh decoder resolves to the row of 0x0C. -/
theorem mode_frame_text_values_witness :
    (process_hex_code_ allSinks Component.fresh ('<' :: "10530c8000".toList)).1.last_status_
        = "Filling"
    ∧ (process_hex_code_ allSinks Component.fresh ('<' :: "10530c8000".toList)).1.last_source_
        = "Mains"
    ∧ (process_hex_code_ allSinks Component.fresh ('<' :: "10530c8000".toList)).1.last_mode_str_
        = "Holiday" :=
  (mode_frame_text_values allSinks Component.fresh "10530c8000".toList '0' 'c' 0 12
    (by decide) (by decide) (by decide) (by decide) (by decide) (by decide) (by decide)
    (by decide)).2.2
    (MODE_MAPPINGS.take 4) ⟨0x0C, "Holiday", "Filling", "Mains", false⟩ (MODE_MAPPINGS.drop 5)
    (by decide) (by decide) (by decide)

/-- Counterexample to C6 as stated. After the refresh-marker frame `<1053100000` on a fresh
decoder, the frame `<1053000000` makes no publish call with mode text `Refresh`: the mode
text is unchanged, so the change filter holds it back. -/
theorem refresh_fill_frame_publishes_no_mode_text :
    (process_hex_code_ allSinks Component.fresh "<1053100000".toList).1 = after_marker
    ∧ ¬ (Pub.mode_text "Refresh"
          ∈ (process_hex_code_ allSinks after_marker "<1053000000".toList).2) := by
  decide

/-- Claim C6, amended. From a fresh decoder with every sensor configured: (1) `<1053100000`
sets `in_refresh_` and publishes raw mode 16, mode `Refresh`, status `Draining`, source
`Rainwater`; (2) `<1053000000` keeps the mode text at `Refresh` and publishes only raw
mode 0 and status `Filling`; (3) a frame with byte 0x01 publishes raw mode 1, mode
`Normal`, status `Idle` and clears `in_refresh_`; (4) a following frame with byte 0x00
keeps the mode text at `Normal` and publishes only raw mode 0 and status `Filling`. -/
theorem refresh_cycle_scenario (rest₃ rest₄ : List Char) (h₃ : 4 ≤ rest₃.length)
    (h₄ : 4 ≤ rest₄.length) :
    process_hex_code_ allSinks Component.fresh "<1053100000".toList
      = (after_marker,
          [Pub.mode_code 16, Pub.mode_text "Refresh", Pub.status_text "Draining",
            Pub.source_text "Rainwater"])
    ∧ process_hex_code_ allSinks after_marker "<1053000000".toList
      = ({ after_marker with last_mode_ := 0, last_status_ := "Filling" },
          [Pub.mode_code 0, Pub.status_text "Filling"])
    ∧ process_hex_code_ allSinks { after_marker with last_mode_ := 0, last_status_ := "Filling" }
          ('<' :: '1' :: '0' :: '5' :: '3' :: '0' :: '1' :: rest₃)
      = ({ after_marker with
            last_mode_ := 1, last_mode_str_ := "Normal", last_status_ := "Idle", in_refresh_ := false },
          [Pub.mode_code 1, Pub.mode_text "Normal", Pub.status_text "Idle"])
    ∧ process_hex_code_ allSinks
          { after_marker with
            last_mode_ := 1, last_mode_str_ := "Normal", last_status_ := "Idle", in_refresh_ := false }
          ('<' :: '1' :: '0' :: '5' :: '3' :: '0' :: '0' :: rest₄)
      = ({ after_marker with
            last_mode_ := 0, last_mode_str_ := "Normal", last_status_ := "Filling", in_refresh_ := false },
          [Pub.mode_code 0, Pub.status_text "Filling"]) := by
  refine ⟨by decide, by decide, ?_, ?_⟩
  · rw [mode_frame_cons allSinks _ '0' '1' rest₃ h₃]
    decide
  · rw [mode_frame_cons allSinks _ '0' '0' rest₄ h₄]
    decide

/-- Witness for the amended C6, frames 3 and 4 being `<1053010000` and `<1053000000`. -/
theorem refresh_cycle_scenario_witness :
    process_hex_code_ allSinks Component.fresh "<1053100000".toList
      = (after_marker,
          [Pub.mode_code 16, Pub.mode_text "Refresh", Pub.status_text "Draining",
            Pub.source_text "Rainwater"])
    ∧ process_hex_code_ allSinks after_marker "<1053000000".toList
      = ({ after_marker with last_mode_ := 0, last_status_ := "Filling" },
          [Pub.mode_code 0, Pub.status_text "Filling"])
    ∧ process_hex_code_ allSinks { after_marker with last_mode_ := 0, last_status_ := "Filling" }
          ('<' :: '1' :: '0' :: '5' :: '3' :: '0' :: '1' :: "0000".toList)
      = ({ after_marker with
            last_mode_ := 1, last_mode_str_ := "Normal", last_status_ := "Idle", in_refresh_ := false },
          [Pub.mode_code 1, Pub.mode_text "Normal", Pub.status_text "Idle"])
    ∧ process_hex_code_ allSinks
          { after_marker with
            last_mode_ := 1, last_mode_str_ := "Normal", last_status_ := "Idle", in_refresh_ := false }
          ('<' :: '1' :: '0' :: '5' :: '3' :: '0' :: '0' :: "0000".toList)
      = ({ after_marker with
            last_mode_ := 0, last_mode_str_ := "Normal", last_status_ := "Filling", in_refresh_ := false },
          [Pub.mode_code 0, Pub.status_text "Filling"]) :=
  refresh_cycle_scenario "0000".toList "0000".toList (by decide) (by decide)

/-- Claim C7. For a `1053` frame of length at least 10 carrying a byte `16 * x + y` that is
not a code of the table: from a fresh decoder, with the three text sensors configured,
the publish calls are the raw mode byte (when that sensor is configured) followed by
`Unknown` on the mode, status and source text sensors; and from every decoder state the
frame leaves `in_refresh_` unchanged. -/
theorem unmapped_mode_byte_unknown (sinks : Sinks) (hex : List Char) (h l : Char) (x y : Nat)
    (hp : hex.take 4 = "1053".toList) (hlen : 10 ≤ hex.length)
    (h4 : hex[4]? = some h) (h5 : hex[5]? = some l)
    (hh : digitVal h = some x) (hx : x < 16) (hl : digitVal l = some y) (hy : y < 16)
    (hun : ∀ row ∈ MODE_MAPPINGS, row.code ≠ 16 * x + y)
    (hmode : sinks.mode_text_sensor_ = true) (hstatus : sinks.status_text_sensor_ = true)
    (hsource : sinks.source_text_sensor_ = true) :
    (process_hex_code_ sinks Component.fresh ('<' :: hex)).2
        = publish_state sinks.mode_code_sensor_ (Pub.mode_code (16 * (x : Int) + y))
          ++ [Pub.mode_text "Unknown", Pub.status_text "Unknown", Pub.source_text "Unknown"]
    ∧ ∀ st : Component, (process_hex_code_ sinks st ('<' :: hex)).1.in_refresh_ = st.in_refresh_ := by
  have hn : find_mapping MODE_MAPPINGS (16 * (x : Int) + y) = none := by
    rw [find_mapping_none]
    intro r hr e
    exact hun r hr (by exact_mod_cast e)
  constructor
  · rw [mode_frame_eq sinks _ hp hlen h4 h5, hex_to_int_two_digits hh hx hl hy]
    have hne : (16 * (x : Int) + y) ≠ -1 := by omega
    simp [mode_update, mode_str_of, status_str_of, source_str_of, hn, Component.fresh, hne,
      publish_state, hmode, hstatus, hsource]
  · intro st
    rw [mode_frame_eq sinks _ hp hlen h4 h5, hex_to_int_two_digits hh hx hl hy]
    simp [mode_update, refresh_after, hn]

/-- Witness for C7: the frame `<1053140000` (byte 0x14). -/
theorem unmapped_mode_byte_unknown_witness :
    (process_hex_code_ allSinks Component.fresh ('<' :: "1053140000".toList)).2
        = publish_state allSinks.mode_code_sensor_ (Pub.mode_code (16 * ((1 : Nat) : Int) + (4 : Nat)))
          ++ [Pub.mode_text "Unknown", Pub.status_text "Unknown", Pub.source_text "Unknown"]
    ∧ ∀ st : Component,
        (process_hex_code_ allSinks st ('<' :: "1053140000".toList)).1.in_refresh_ = st.in_refresh_ :=
  unmapped_mode_byte_unknown allSinks "1053140000".toList '1' '4' 1 4
    (by decide) (by decide) (by decide) (by decide) (by decide) (by decide) (by decide) (by decide)
    (by decide) (by decide) (by decide) (by decide)

/-- Claim C8. Let the first occurrence of `"top":"` in the record be followed by the decimal
digit string `a` and a closing quote, and the first occurrence of `"state":"` by the digit
string `b` and a closing quote, both values within `int` range. With the tank-level and
state-code sensors configured, `process_json_` on a fresh decoder publishes exactly the
level `a` and then the state `b`, nothing on the other sensors, and records both values. -/
theorem json_record_publishes_level_and_state (sinks : Sinks)
    (json pre₁ a post₁ pre₂ b post₂ : List Char)
    (htop : json = pre₁ ++ json_key_pattern "top".toList ++ a ++ '"' :: post₁)
    (htop_first : ∀ j, j < pre₁.length → ¬ json_key_pattern "top".toList <+: json.drop j)
    (hstate : json = pre₂ ++ json_key_pattern "state".toList ++ b ++ '"' :: post₂)
    (hstate_first : ∀ j, j < pre₂.length → ¬ json_key_pattern "state".toList <+: json.drop j)
    (hda : ∀ c ∈ a, c ∈ "0123456789".toList) (hra : decimal_value a ≤ 2147483647)
    (hdb : ∀ c ∈ b, c ∈ "0123456789".toList) (hrb : decimal_value b ≤ 2147483647)
    (hlevel : sinks.tank_level_sensor_ = true) (hcode : sinks.state_code_sensor_ = true) :
    process_json_ sinks Component.fresh json
      = ({ Component.fresh with last_top_ := decimal_value a, last_state_ := decimal_value b },
          [Pub.tank_level (decimal_value a), Pub.state_code (decimal_value b)]) := by
  have qa : '"' ∉ a := fun h => (digit_char_facts (hda _ h)).2.2.2.2.2 rfl
  have qb : '"' ∉ b := fun h => (digit_char_facts (hdb _ h)).2.2.2.2.2 rfl
  have e1 : extract_json_int_ json "top".toList = decimal_value a := by
    rw [extract_json_int_of_split _ htop htop_first qa, atoi_digits a hda hra]
  have e2 : extract_json_int_ json "state".toList = decimal_value b := by
    rw [extract_json_int_of_split _ hstate hstate_first qb, atoi_digits b hdb hrb]
  have n1 : ((decimal_value a : Nat) : Int) ≠ -1 := by omega
  have n2 : ((decimal_value b : Nat) : Int) ≠ -1 := by omega
  rw [process_json_eq, e1, e2]
  simp [level_update, state_update, Component.fresh, n1, n2, publish_state, hlevel, hcode]

/-- Witness for C8: top 42 and state 3. -/
theorem json_record_publishes_level_and_state_witness :
    process_json_ allSinks Component.fresh "\x7b\"tanklevels\":\x7b\"top\":\"42\",\"state\":\"3\"\x7d\x7d".toList
      = ({ Component.fresh with last_top_ := 42, last_state_ := 3 },
          [Pub.tank_level 42, Pub.state_code 3]) :=
  json_record_publishes_level_and_state allSinks
    "\x7b\"tanklevels\":\x7b\"top\":\"42\",\"state\":\"3\"\x7d\x7d".toList
    "\x7b\"tanklevels\":\x7b".toList "42".toList ",\"state\":\"3\"\x7d\x7d".toList
    "\x7b\"tanklevels\":\x7b\"top\":\"42\",".toList "3".toList "\x7d\x7d".toList
    (by decide) (by decide) (by decide) (by decide) (by decide) (by decide) (by decide)
    (by decide) rfl rfl

/-- Claim C9. When the search pattern of `key` does not occur in the record, or no quote
follows its first occurrence, `extract_json_int_` returns -1. In `process_json_` a field
that yields -1 is skipped: its block publishes nothing and changes no field, and the call
reduces to the block of the other field (with `top` yielding -1 to the state block, with
`state` yielding -1 to the level block), each block being the one that runs when both
fields are present (last conjunct). -/
theorem absent_field_skipped (sinks : Sinks) (json key : List Char)
    (h : field_absent json key) :
    extract_json_int_ json key = -1
    ∧ (∀ st : Component,
        level_update sinks st (-1) = (st, []) ∧ state_update sinks st (-1) = (st, []))
    ∧ (∀ (st : Component) (json' : List Char),
        extract_json_int_ json' "top".toList = -1 →
          process_json_ sinks st json'
            = state_update sinks st (extract_json_int_ json' "state".toList))
    ∧ (∀ (st : Component) (json' : List Char),
        extract_json_int_ json' "state".toList = -1 →
          process_json_ sinks st json'
            = level_update sinks st (extract_json_int_ json' "top".toList))
    ∧ (∀ (st : Component) (json' : List Char),
        process_json_ sinks st json'
          = ((state_update sinks (level_update sinks st (extract_json_int_ json' "top".toList)).1
                (extract_json_int_ json' "state".toList)).1,
              (level_update sinks st (extract_json_int_ json' "top".toList)).2
                ++ (state_update sinks (level_update sinks st (extract_json_int_ json' "top".toList)).1
                  (extract_json_int_ json' "state".toList)).2)) := by
  have top_absent : ∀ (st : Component) (json' : List Char),
      extract_json_int_ json' "top".toList = -1 →
        process_json_ sinks st json'
          = state_update sinks st (extract_json_int_ json' "state".toList) := by
    intro st json' e
    rw [process_json_eq, e, level_update_absent]
    simp
  have state_absent : ∀ (st : Component) (json' : List Char),
      extract_json_int_ json' "state".toList = -1 →
        process_json_ sinks st json'
          = level_update sinks st (extract_json_int_ json' "top".toList) := by
    intro st json' e
    rw [process_json_eq, e, state_update_absent]
    simp
  exact ⟨extract_json_int_absent h,
    fun st => ⟨level_update_absent sinks st, state_update_absent sinks st⟩,
    top_absent, state_absent, process_json_eq sinks⟩

/-- Witness for C9: a record without the `state` key publishes the level only. -/
theorem absent_field_skipped_witness :
    extract_json_int_ "\x7b\"tanklevels\":\x7b\"top\":\"42\"\x7d\x7d".toList "state".toList = -1
    ∧ process_json_ allSinks Component.fresh "\x7b\"tanklevels\":\x7b\"top\":\"42\"\x7d\x7d".toList
        = ({ Component.fresh with last_top_ := 42 }, [Pub.tank_level 42]) :=
  have h := absent_field_skipped allSinks
    "\x7b\"tanklevels\":\x7b\"top\":\"42\"\x7d\x7d".toList "state".toList (Or.inl (by decide))
  ⟨h.1, (h.2.2.2.1 Component.fresh _ h.1).trans (by decide)⟩

/-- Claim C10. Feeding 501 bytes, none of them CR, LF or `<` and no prefix of them containing
a JSON record, into a component whose buffer is empty makes no publish call and leaves
the buffer empty; the whole component state is as before. -/
theorem overflow_guard_clears_buffer (sinks : Sinks) (st : Component) (bytes : List Char)
    (hempty : st.buffer_ = []) (hlen : bytes.length = 501)
    (hbytes : ∀ c ∈ bytes, c ≠ '\r' ∧ c ≠ '\n' ∧ c ≠ '<')
    (hjson : ∀ p : List Char, p <+: bytes → has_json_record p = false) :
    (loop sinks st bytes).2 = [] ∧ (loop sinks st bytes).1.buffer_ = []
    ∧ loop sinks st bytes = (st, []) := by
  have hb : ∀ c ∈ bytes, is_boundary c = false := fun c hc => by
    obtain ⟨a1, a2, a3⟩ := hbytes c hc
    simp [is_boundary, a1, a2, a3]
  have hsplit : bytes = bytes.take 500 ++ bytes.drop 500 := (List.take_append_drop 500 bytes).symm
  have hd : ∃ c, bytes.drop 500 = [c] := by
    have : (bytes.drop 500).length = 1 := by simp [hlen]
    exact List.length_eq_one.mp this
  obtain ⟨c, hc⟩ := hd
  have hcm : c ∈ bytes := by
    have : c ∈ bytes.drop 500 := by simp [hc]
    exact List.mem_of_mem_drop this
  have h1 := loop_accumulate sinks (bytes.take 500) st
    (fun d hd => hb d (List.mem_of_mem_take hd))
    (by rw [hempty, List.nil_append]; exact hjson _ (List.take_prefix _ _))
    (by rw [hempty, List.nil_append, List.length_take]; omega)
  rw [hempty, List.nil_append] at h1
  have e : loop sinks st bytes = (st, []) := by
    have hfull : (set_buffer st (bytes.take 500)).buffer_ ++ [c] = bytes := by
      simp only [set_buffer]
      rw [← hc]; exact List.take_append_drop 500 bytes
    have hfeed := feed_overflow sinks (set_buffer st (bytes.take 500)) c (hb c hcm)
      (by rw [hfull]; exact hjson bytes (List.prefix_refl _)) (by rw [hfull, hlen]; decide)
    have hst : set_buffer (set_buffer st (bytes.take 500)) [] = st :=
      set_buffer_clear st _ hempty
    rw [hst] at hfeed
    rw [hsplit, loop_append, h1, hc]
    simp only [loop, hfeed, List.append_nil]
  rw [e]
  exact ⟨rfl, hempty, rfl⟩

/-- Witness for C10: 501 bytes `a`. -/
theorem overflow_guard_clears_buffer_witness :
    (loop allSinks Component.fresh (List.replicate 501 'a')).2 = []
    ∧ (loop allSinks Component.fresh (List.replicate 501 'a')).1.buffer_ = []
    ∧ loop allSinks Component.fresh (List.replicate 501 'a') = (Component.fresh, []) :=
  overflow_guard_clears_buffer allSinks Component.fresh (List.replicate 501 'a') rfl
    (List.length_replicate _ _)
    (fun c hc => by
      have : c = 'a' := List.eq_of_mem_replicate hc
      subst this; decide)
    (fun p hp => has_json_record_of_no_brace
      (fun h => absurd (List.eq_of_mem_replicate (hp.subset h)) (by decide)))

/-- Claim C11 (buffer bound). Starting from an empty buffer, after any sequence of bytes
consumed by `loop()`, hence after every single byte of any stream, the pending buffer holds
at most 500 bytes. -/
theorem buffer_bounded (sinks : Sinks) (st : Component) (bytes : List Char)
    (hempty : st.buffer_ = []) : (loop sinks st bytes).1.buffer_.length ≤ 500 := by
  induction bytes using List.reverseRecOn with
  | nil => simp [loop, hempty]
  | append_singleton init c _ =>
    rw [loop_snoc, feed_buffer]
    split_ifs <;> simp_all

/-- Witness for C11: 1200 bytes `a`. -/
theorem buffer_bounded_witness :
    (loop allSinks Component.fresh (List.replicate 1200 'a')).1.buffer_.length ≤ 500 :=
  buffer_bounded allSinks Component.fresh (List.replicate 1200 'a') rfl

/-- Claim C12. A hex record whose content after `<` is neither a `2053` frame of length at
least 10 nor a `1053` frame of length at least 10 publishes nothing and leaves every field
of the component unchanged; in particular every record that starts with one of the ignored
prefixes, and every record shorter than 10 characters. -/
theorem unhandled_frame_is_ignored (sinks : Sinks) (st : Component) (hex : List Char)
    (h : (¬ (hex.take 4 = "2053".toList ∧ 10 ≤ hex.length)
            ∧ ¬ (hex.take 4 = "1053".toList ∧ 10 ≤ hex.length))
          ∨ (∃ p ∈ IGNORED_PREFIXES, p <+: hex)
          ∨ hex.length < 10) :
    process_hex_code_ sinks st ('<' :: hex) = (st, []) := by
  rcases h with ⟨h1, h2⟩ | ⟨p, hp, hpre⟩ | hshort
  · exact other_frame_eq sinks st hex h1 h2
  · obtain ⟨e, n1, n2⟩ := take_four_of_ignored hp hpre
    exact other_frame_eq sinks st hex (fun c => n1 (e ▸ c.1)) (fun c => n2 (e ▸ c.1))
  · exact other_frame_eq sinks st hex (fun c => by omega) (fun c => by omega)

/-- Witness for C12: a heartbeat frame `<2012345678` met in the middle of a refresh cycle. -/
theorem unhandled_frame_is_ignored_witness :
    process_hex_code_ allSinks after_marker ('<' :: "2012345678".toList) = (after_marker, []) :=
  unhandled_frame_is_ignored allSinks after_marker "2012345678".toList
    (Or.inr (Or.inl ⟨"20123".toList, by decide, by decide⟩))

/-- Claim C13 (independent edge-triggering). For a `1053` frame of length at least 10 and the
four sensors of the display-panel branch configured, the publish calls are, channel by
channel and in this order, the newly computed raw byte, mode text, status text and source
text, each present exactly when it differs from the last value held for its own channel.
In particular, when a frame carrying the code of row `ra` is followed by a frame
carrying the different code of row `rb` with the same status, the second frame publishes
the raw byte of `rb` and nothing on the status channel. -/
theorem mode_channels_edge_triggered (sinks : Sinks) (st : Component) (hex : List Char)
    (hp : hex.take 4 = "1053".toList) (hlen : 10 ≤ hex.length)
    (hcode : sinks.mode_code_sensor_ = true) (hmode : sinks.mode_text_sensor_ = true)
    (hstatus : sinks.status_text_sensor_ = true) (hsource : sinks.source_text_sensor_ = true) :
    (process_hex_code_ sinks st ('<' :: hex)).2
        = (if payload ('<' :: hex) ≠ st.last_mode_
            then [Pub.mode_code (payload ('<' :: hex))] else [])
          ++ (if mode_str_of st (payload ('<' :: hex)) ≠ st.last_mode_str_
              then [Pub.mode_text (mode_str_of st (payload ('<' :: hex)))] else [])
          ++ (if status_str_of (payload ('<' :: hex)) ≠ st.last_status_
              then [Pub.status_text (status_str_of (payload ('<' :: hex)))] else [])
          ++ (if source_str_of (payload ('<' :: hex)) ≠ st.last_source_
              then [Pub.source_text (source_str_of (payload ('<' :: hex)))] else [])
    ∧ ∀ (hex' : List Char) (ra rb : ModeMapping),
        hex'.take 4 = "1053".toList → 10 ≤ hex'.length →
        ra ∈ MODE_MAPPINGS → rb ∈ MODE_MAPPINGS →
        payload ('<' :: hex) = ra.code → payload ('<' :: hex') = rb.code →
        ra.code ≠ rb.code → ra.status = rb.status →
        Pub.mode_code rb.code
            ∈ (process_hex_code_ sinks (process_hex_code_ sinks st ('<' :: hex)).1 ('<' :: hex')).2
        ∧ ∀ s, Pub.status_text s
            ∉ (process_hex_code_ sinks (process_hex_code_ sinks st ('<' :: hex)).1 ('<' :: hex')).2 := by
  constructor
  · rw [mode_frame_payload sinks st hex hp hlen]
    simp only [mode_update, publish_state, hcode, hmode, hstatus, hsource, if_true]
  · intro hex' ra rb hp' hlen' hra hrb ea eb hne hst
    rw [mode_frame_payload sinks st hex hp hlen, mode_frame_payload sinks _ hex' hp' hlen', ea, eb]
    have hne' : ((rb.code : Nat) : Int) ≠ (ra.code : Int) := by
      intro c
      exact hne (by exact_mod_cast c.symm)
    have hs : status_str_of (rb.code : Int) = status_str_of (ra.code : Int) := by
      rw [status_str_of_row hra, status_str_of_row hrb, hst]
    constructor
    · simp [mode_update, publish_state, hcode, hne']
    · intro s hmem
      exact status_text_of_mode_update sinks _ _ s hmem hs

/-- Witness for C13: byte 0x01 followed by byte 0x04, both with status `Idle`. -/
theorem mode_channels_edge_triggered_witness :
    Pub.mode_code 4
        ∈ (process_hex_code_ allSinks (process_hex_code_ allSinks Component.fresh
              ('<' :: "1053010000".toList)).1 ('<' :: "1053040000".toList)).2
    ∧ ∀ s, Pub.status_text s
        ∉ (process_hex_code_ allSinks (process_hex_code_ allSinks Component.fresh
              ('<' :: "1053010000".toList)).1 ('<' :: "1053040000".toList)).2 :=
  (mode_channels_edge_triggered allSinks Component.fresh "1053010000".toList
    (by decide) (by decide) rfl rfl rfl rfl).2 "1053040000".toList
    ⟨0x01, "Normal", "Idle", "Rainwater", false⟩ ⟨0x04, "Normal", "Idle", "Mains", false⟩
    (by decide) (by decide) (by decide) (by decide) (by decide) (by decide) (by decide) (by decide)

/-- Claim C14 (last-forwarded invariant). With every sensor configured, after any sequence
of records decoded from a fresh decoder each of the six last-value fields equals the value
most recently published on its channel, or its initial value (-1, or the empty string)
when nothing was published there. The same holds after any byte stream fed to a fresh
component (second conjunct, stated with `tracks`). -/
theorem last_forwarded_invariant (rs : List Record) (bytes : List Char) :
    ((decode_all allSinks Component.fresh rs).1.last_top_
        = (last_published tank_level_of (decode_all allSinks Component.fresh rs).2).getD (-1)
      ∧ (decode_all allSinks Component.fresh rs).1.last_mode_
        = (last_published mode_code_of (decode_all allSinks Component.fresh rs).2).getD (-1)
      ∧ (decode_all allSinks Component.fresh rs).1.last_state_
        = (last_published state_code_of (decode_all allSinks Component.fresh rs).2).getD (-1)
      ∧ (decode_all allSinks Component.fresh rs).1.last_mode_str_
        = (last_published mode_text_of (decode_all allSinks Component.fresh rs).2).getD ""
      ∧ (decode_all allSinks Component.fresh rs).1.last_status_
        = (last_published status_text_of (decode_all allSinks Component.fresh rs).2).getD ""
      ∧ (decode_all allSinks Component.fresh rs).1.last_source_
        = (last_published source_text_of (decode_all allSinks Component.fresh rs).2).getD "")
    ∧ tracks (loop allSinks Component.fresh bytes).1 (loop allSinks Component.fresh bytes).2 := by
  have h0 : tracks Component.fresh [] := by
    simp [tracks, Component.fresh, last_published]
  exact ⟨by simpa using tracks_decode_all rs Component.fresh [] h0,
    by simpa using tracks_loop bytes Component.fresh [] h0⟩

/-- Claim C15. Whatever bytes are fed, from any component state and with any sensor
configuration, every value published on the mode text channel is one of Normal, Holiday,
Refresh, Unknown; on the status text channel one of Idle, Filling, Draining, Unknown; on
the source text channel one of Rainwater, Mains, Unknown. -/
theorem published_texts_in_range (sinks : Sinks) (st : Component) (bytes : List Char) :
    ∀ p ∈ (loop sinks st bytes).2,
      (∀ s, p = Pub.mode_text s → s ∈ ["Normal", "Holiday", "Refresh", "Unknown"])
      ∧ (∀ s, p = Pub.status_text s → s ∈ ["Idle", "Filling", "Draining", "Unknown"])
      ∧ (∀ s, p = Pub.source_text s → s ∈ ["Rainwater", "Mains", "Unknown"]) := by
  have hv : ∀ (bs : List Char) (s0 : Component), ∀ p ∈ (loop sinks s0 bs).2, valid_pub p = true := by
    intro bs
    induction bs with
    | nil => intro s0 p hp; simp [loop] at hp
    | cons c t ih =>
      intro s0 p hp
      simp only [loop, List.mem_append] at hp
      rcases hp with h | h
      · exact feed_valid sinks s0 c p h
      · exact ih _ p h
  intro p hp
  have := hv bytes st p hp
  refine ⟨fun s e => ?_, fun s e => ?_, fun s e => ?_⟩ <;>
    · subst e
      simpa [valid_pub] using this

/-- Witness for C15: the `Unknown` published for the frame `<1053140000`. -/
theorem published_texts_in_range_witness :
    Pub.mode_text "Unknown" ∈ (loop allSinks Component.fresh "<1053140000\r".toList).2
    ∧ "Unknown" ∈ ["Normal", "Holiday", "Refresh", "Unknown"] :=
  ⟨by decide,
    (published_texts_in_range allSinks Component.fresh "<1053140000\r".toList
      (Pub.mode_text "Unknown") (by decide)).1 "Unknown" rfl⟩

/-- Claim C16 fails on the code. The frame `<1053-50000` has prefix `1053` and length 10;
`hex_to_int_` reads its payload `-5` as -5 (`strtol` accepts a sign), and the value -5 is
published on the raw mode code channel. The level branch rejects the same payload through
its `level >= 0` test. -/
theorem signed_payload_gives_negative_mode_byte :
    hex_to_int_ (substr "1053-50000".toList 4 2) = -5
    ∧ process_hex_code_ allSinks Component.fresh "<1053-50000".toList
        = ({ Component.fresh with
              last_mode_ := -5, last_mode_str_ := "Unknown", last_status_ := "Unknown",
              last_source_ := "Unknown" },
            [Pub.mode_code (-5), Pub.mode_text "Unknown", Pub.status_text "Unknown",
              Pub.source_text "Unknown"])
    ∧ (loop allSinks Component.fresh "<1053-50000\r".toList).2
        = [Pub.mode_code (-5), Pub.mode_text "Unknown", Pub.status_text "Unknown",
            Pub.source_text "Unknown"]
    ∧ process_hex_code_ allSinks Component.fresh "<2053-50000".toList = (Component.fresh, []) := by
  decide

/-- Claim C17. The tank-level channel is shared by the two record formats: for a level
`v ≥ 0`, after a `2053` frame whose payload parses to `v` a JSON record whose `top` field
parses to `v` publishes nothing on the tank-level channel, and after such a JSON record
such a frame publishes nothing on it either, from every decoder state. -/
theorem level_channel_shared (sinks : Sinks) (st : Component) (hex json : List Char) (v : Int)
    (hp : hex.take 4 = "2053".toList) (hlen : 10 ≤ hex.length)
    (hpay : payload ('<' :: hex) = v) (htop : extract_json_int_ json "top".toList = v)
    (hv : 0 ≤ v) :
    (∀ x, Pub.tank_level x
        ∉ (process_json_ sinks (process_hex_code_ sinks st ('<' :: hex)).1 json).2)
    ∧ (∀ x, Pub.tank_level x
        ∉ (process_hex_code_ sinks (process_json_ sinks st json).1 ('<' :: hex)).2) := by
  constructor
  · intro x
    rw [level_frame_payload sinks st hex hp hlen, hpay, process_json_eq, htop,
      level_update_same sinks _ v (level_update_last_top sinks st v hv)]
    simpa using state_update_no_level sinks _ _ x
  · intro x
    have e : (process_json_ sinks st json).1.last_top_ = v := by
      rw [process_json_eq, htop]
      simp only [state_update_last_top]
      exact level_update_last_top sinks st v hv
    rw [level_frame_payload sinks _ hex hp hlen, hpay, level_update_same sinks _ v e]
    simp

/-- Witness for C17: the frame `<20532a8000` (level 42) and a JSON record with top 42. -/
theorem level_channel_shared_witness :
    (∀ x, Pub.tank_level x
        ∉ (process_json_ allSinks (process_hex_code_ allSinks Component.fresh
              ('<' :: "20532a8000".toList)).1
            "\x7b\"tanklevels\":\x7b\"top\":\"42\",\"state\":\"3\"\x7d\x7d".toList).2)
    ∧ (∀ x, Pub.tank_level x
        ∉ (process_hex_code_ allSinks (process_json_ allSinks Component.fresh
              "\x7b\"tanklevels\":\x7b\"top\":\"42\",\"state\":\"3\"\x7d\x7d".toList).1
            ('<' :: "20532a8000".toList)).2) :=
  level_channel_shared allSinks Component.fresh "20532a8000".toList
    "\x7b\"tanklevels\":\x7b\"top\":\"42\",\"state\":\"3\"\x7d\x7d".toList 42
    (by decide) (by decide) (by decide) (by decide) (by decide)

/-- Claim C18 (refresh flag). After any sequence of records decoded from a fresh decoder,
`in_refresh_` is set exactly when the sequence contains a `1053` frame (length at least
10) with byte 0x10 that no later `1053` frame with byte 0x01, 0x04 or 0x08 follows. A
record that is neither of these two kinds (bytes 0x00 and 0x0C, unmapped bytes, level
frames, ignored frames, JSON records) leaves the flag as it was. -/
theorem refresh_flag_characterisation (sinks : Sinks) (rs : List Record) :
    ((decode_all sinks Component.fresh rs).1.in_refresh_ = true ↔
        ∃ pre r post, rs = pre ++ r :: post ∧ is_refresh_marker r = true
          ∧ ∀ r' ∈ post, is_idle_frame r' = false)
    ∧ ∀ (st : Component) (r : Record), is_refresh_marker r = false → is_idle_frame r = false →
        (decode sinks st r).1.in_refresh_ = st.in_refresh_ := by
  constructor
  · induction rs using List.reverseRecOn with
    | nil =>
      simp [decode_all, Component.fresh]
    | append_singleton init r ih =>
      have e : (decode_all sinks Component.fresh (init ++ [r])).1.in_refresh_
          = (decode sinks (decode_all sinks Component.fresh init).1 r).1.in_refresh_ := by
        rw [decode_all_append]
        simp [decode_all]
      rw [e, decode_in_refresh]
      by_cases hm : is_refresh_marker r = true
      · rw [if_pos hm]
        exact ⟨fun _ => ⟨init, r, [], rfl, hm, by simp⟩, fun _ => rfl⟩
      · rw [if_neg hm]
        by_cases hi : is_idle_frame r = true
        · rw [if_pos hi]
          constructor
          · intro c; exact absurd c (by decide)
          · rintro ⟨pre, m, post, hsplit, hmk, hpost⟩
            exfalso
            rcases List.eq_nil_or_concat post with hp | ⟨post', x, hp⟩
            · subst hp
              have := List.append_inj_right' (hsplit : init ++ [r] = pre ++ [m]) rfl
              simp only [List.cons.injEq, and_true] at this
              exact hm (this ▸ hmk)
            · subst hp
              have h2 : init ++ [r] = (pre ++ m :: post') ++ [x] := by
                rw [hsplit]; simp
              have := List.append_inj_right' h2 rfl
              simp only [List.cons.injEq, and_true] at this
              have hx := hpost x (by simp)
              rw [← this, hi] at hx
              exact absurd hx (by decide)
        · rw [if_neg hi, ih]
          simp only [Bool.not_eq_true] at hi hm
          constructor
          · rintro ⟨pre, m, post, hsplit, hmk, hpost⟩
            refine ⟨pre, m, post ++ [r], by rw [hsplit]; simp, hmk, ?_⟩
            intro r' hr'
            rcases List.mem_append.mp hr' with h | h
            · exact hpost r' h
            · simp only [List.mem_singleton] at h
              rw [h]; exact hi
          · rintro ⟨pre, m, post, hsplit, hmk, hpost⟩
            rcases List.eq_nil_or_concat post with hp | ⟨post', x, hp⟩
            · subst hp
              have := List.append_inj_right' (hsplit : init ++ [r] = pre ++ [m]) rfl
              simp only [List.cons.injEq, and_true] at this
              rw [this, hmk] at hm
              exact absurd hm (by decide)
            · subst hp
              have h2 : init ++ [r] = (pre ++ m :: post') ++ [x] := by
                rw [hsplit]; simp
              have h3 := List.append_inj_left' h2 rfl
              exact ⟨pre, m, post', h3, hmk, fun r' hr' => hpost r' (by simp [hr'])⟩
  · intro st r hm hi
    rw [decode_in_refresh, hm, hi]
    rfl

/-- Witness for C18: a marker frame followed by a fill frame, a level frame and a JSON record. -/
theorem refresh_flag_characterisation_witness :
    (decode_all allSinks Component.fresh
      [Record.hex "1053010000".toList, Record.hex "1053100000".toList,
        Record.hex "1053000000".toList, Record.hex "2053328000".toList,
        Record.json "\x7b\"tanklevels\":\x7b\"top\":\"42\"\x7d\x7d".toList]).1.in_refresh_ = true :=
  (refresh_flag_characterisation allSinks _).1.mpr
    ⟨[Record.hex "1053010000".toList], Record.hex "1053100000".toList,
      [Record.hex "1053000000".toList, Record.hex "2053328000".toList,
        Record.json "\x7b\"tanklevels\":\x7b\"top\":\"42\"\x7d\x7d".toList],
      rfl, by decide, by decide⟩

/-- Claim C19. Starting from an empty buffer, after any bytes consumed by `loop()` the
pending buffer holds no JSON record (marker followed by `}}`). Hence, when that buffer
does not start with `<`, `process_buffer_` dispatches nothing, and a CR, LF or `<` that
arrives publishes nothing and changes no decoder field: it only resets the buffer. -/
theorem no_json_record_left_in_buffer (sinks : Sinks) (st : Component) (bytes : List Char)
    (hempty : st.buffer_ = []) :
    has_json_record (loop sinks st bytes).1.buffer_ = false
    ∧ ((loop sinks st bytes).1.buffer_.head? ≠ some '<' →
        process_buffer_ sinks (loop sinks st bytes).1 = ((loop sinks st bytes).1, [])
        ∧ ∀ b : Char, b = '\r' ∨ b = '\n' ∨ b = '<' →
            feed sinks (loop sinks st bytes).1 b
              = (set_buffer (loop sinks st bytes).1 (if b = '<' then ['<'] else []), [])) := by
  have hj : has_json_record (loop sinks st bytes).1.buffer_ = false := by
    induction bytes using List.reverseRecOn with
    | nil => simp only [loop, hempty]; decide
    | append_singleton init c _ => rw [loop_snoc]; exact feed_no_json_record sinks _ c
  exact ⟨hj, fun hh => ⟨process_buffer_other sinks _ hj hh,
    fun b hb => feed_boundary_other sinks _ b hj hh hb⟩⟩

set_option maxRecDepth 8192 in
/-- Witness for C19: an unfinished JSON record dropped at a CR. -/
theorem no_json_record_left_in_buffer_witness :
    has_json_record (loop allSinks Component.fresh "xy\x7b\"tanklevels\":1".toList).1.buffer_ = false
    ∧ feed allSinks (loop allSinks Component.fresh "xy\x7b\"tanklevels\":1".toList).1 '\r'
        = (set_buffer (loop allSinks Component.fresh "xy\x7b\"tanklevels\":1".toList).1 [], []) :=
  have h := no_json_record_left_in_buffer allSinks Component.fresh
    "xy\x7b\"tanklevels\":1".toList rfl
  ⟨h.1, (h.2 (by decide)).2 '\r' (Or.inl rfl)⟩

/-- Claim C20. Let `body` contain no CR, LF, `<` and no JSON marker, and let the record `j`
start with the marker, contain no CR, LF or `<`, and contain `}}` only as its last two
bytes, with the frame `<` + `body` and `j` together at most 500 bytes long. Fed from an
empty buffer, the frame immediately followed by `j` has exactly the effect of
`process_json_` on `j` alone and leaves the buffer empty: the frame is never decoded. -/
theorem pending_hex_frame_discarded (sinks : Sinks) (st : Component) (body j : List Char)
    (hempty : st.buffer_ = [])
    (hbody : ∀ c ∈ body, c ≠ '\r' ∧ c ≠ '\n' ∧ c ≠ '<')
    (hbm : ¬ JSON_MARKER <:+: body)
    (hjm : JSON_MARKER <+: j)
    (hj : ∀ c ∈ j, c ≠ '\r' ∧ c ≠ '\n' ∧ c ≠ '<')
    (hend : ∀ k, "\x7d\x7d".toList <+: j.drop k ↔ k + 2 = j.length)
    (hlen : ('<' :: body).length + j.length ≤ 500) :
    loop sinks st ('<' :: body ++ j) = process_json_ sinks st j
    ∧ (loop sinks st ('<' :: body ++ j)).1.buffer_ = [] := by
  have h13 : JSON_MARKER.length = 13 := rfl
  have hjl : 13 ≤ j.length := by have := hjm.length_le; omega
  have hhm := marker_not_in_frame hbm
  -- the record starts with an opening brace
  obtain ⟨x, hx⟩ : ∃ x, j = '\x7b' :: x := by
    obtain ⟨t, ht⟩ := hjm
    exact ⟨_, ht.symm⟩
  -- split off the last byte of the record
  rcases List.eq_nil_or_concat j with hnil | ⟨jinit, c, hjc⟩
  · rw [hnil] at hjl; simp at hjl
  rw [List.concat_eq_append] at hjc
  have hil : jinit.length + 1 = j.length := by rw [hjc]; simp
  obtain ⟨y, hy⟩ : ∃ y, jinit = '\x7b' :: y := by
    cases jinit with
    | nil => simp only [List.length_nil] at hil; omega
    | cons a y =>
      rw [hjc] at hx
      simp only [List.cons_append, List.cons.injEq] at hx
      exact ⟨y, by rw [hx.1]⟩
  have hcb : is_boundary c = false := by
    obtain ⟨a1, a2, a3⟩ := hj c (by rw [hjc]; simp)
    simp [is_boundary, a1, a2, a3]
  -- nothing is dispatched while the frame and all but the last byte of the record arrive
  have hacc : loop sinks st ('<' :: body ++ jinit) = (set_buffer st ('<' :: body ++ jinit), []) := by
    have hnb : ∀ d ∈ body ++ jinit, is_boundary d = false := by
      intro d hd
      have : d ∈ body ∨ d ∈ j := by
        rcases List.mem_append.mp hd with h | h
        · exact Or.inl h
        · exact Or.inr (by rw [hjc]; simp [h])
      obtain ⟨a1, a2, a3⟩ : d ≠ '\r' ∧ d ≠ '\n' ∧ d ≠ '<' := by
        rcases this with h | h
        · exact hbody d h
        · exact hj d h
      simp [is_boundary, a1, a2, a3]
    have hnj : has_json_record ('<' :: body ++ jinit) = false := by
      cases hr : has_json_record ('<' :: body ++ jinit) with
      | false => rfl
      | true =>
        exfalso
        obtain ⟨i, k, hik, hk, hpi, hpk⟩ := has_json_record_iff.mp hr
        have hi : ('<' :: body).length ≤ i := by
          by_contra hlt
          rw [hy] at hpi
          exact no_marker_before hhm i (by omega) hpi
        have e : ('<' :: body ++ jinit).drop k = jinit.drop (k - ('<' :: body).length) := by
          have : k = ('<' :: body).length + (k - ('<' :: body).length) := by omega
          rw [this, List.drop_append, ← this]
        rw [e] at hpk
        have hk2 : k - ('<' :: body).length ≤ jinit.length := by
          simp only [List.length_append] at hk; omega
        have hpj : "\x7d\x7d".toList <+: j.drop (k - ('<' :: body).length) := by
          rw [hjc, List.drop_append_of_le_length hk2]
          exact hpk.trans (List.prefix_append _ _)
        have h1 := (hend _).mp hpj
        have h2 := hpk.length_le
        rw [List.length_drop] at h2
        have h3 : "\x7d\x7d".toList.length = 2 := rfl
        omega
    have h := loop_accumulate sinks (body ++ jinit) (set_buffer st ['<']) hnb
      (by simpa [set_buffer] using hnj)
      (by
        simp only [set_buffer, List.length_append, List.length_singleton, List.length_cons,
          List.length_nil] at hlen ⊢
        omega)
    rw [List.cons_append]
    simp only [loop, feed_open_empty sinks st hempty, h]
    simp [set_buffer]
  -- the last byte completes the record, which is dispatched alone
  have hB : (set_buffer st ('<' :: body ++ jinit)).buffer_ ++ [c] = '<' :: body ++ j := by
    simp only [set_buffer]
    rw [hjc]; simp
  have f1 : find ('<' :: body ++ j) JSON_MARKER 0 = some ('<' :: body).length := by
    rw [find_eq_some_iff]
    refine ⟨⟨Nat.zero_le _, by simp, ?_⟩, fun i _ hi => ?_⟩
    · rw [List.drop_left]; exact hjm
    · rw [hx]; exact no_marker_before hhm i hi
  have f0 : find j "\x7d\x7d".toList 0 = some (j.length - 2) := by
    rw [find_eq_some_iff]
    refine ⟨⟨Nat.zero_le _, by omega, (hend _).mpr (by omega)⟩, fun i _ hi hp => ?_⟩
    have := (hend i).mp hp
    omega
  have f2 : find ('<' :: body ++ j) "\x7d\x7d".toList ('<' :: body).length
      = some (('<' :: body).length + (j.length - 2)) := by
    have := find_shift ('<' :: body) j "\x7d\x7d".toList 0
    rw [f0] at this
    simpa using this
  have hsub : substr ('<' :: body ++ j) ('<' :: body).length
      (('<' :: body).length + (j.length - 2) - ('<' :: body).length + 2) = j := by
    unfold substr
    rw [List.drop_left, Nat.add_sub_cancel_left]
    exact List.take_of_length_le (by omega)
  have hfeed := feed_json_dispatch sinks (set_buffer st ('<' :: body ++ jinit)) c _ _ hcb
    (by rw [hB]; exact f1) (by rw [hB]; exact f2)
  rw [hB, hsub, process_json_set_buffer] at hfeed
  have hbuf : (process_json_ sinks st j).1.buffer_ = [] := by
    rw [process_json_buffer, hempty]
  have hres : loop sinks st ('<' :: body ++ j) = process_json_ sinks st j := by
    have : '<' :: body ++ j = ('<' :: body ++ jinit) ++ [c] := by rw [hjc]; simp
    rw [this, loop_append, hacc]
    simp only [loop, hfeed, List.nil_append, List.append_nil]
    have e := set_buffer_self (process_json_ sinks st j).1 [] hbuf
    simp only [set_buffer] at e ⊢
    rw [e]
  exact ⟨hres, by rw [hres]; exact hbuf⟩

/-- Witness for C20: the level frame `<2053328000` is lost behind a JSON record. -/
theorem pending_hex_frame_discarded_witness :
    loop allSinks Component.fresh
        ('<' :: "2053328000".toList ++ "\x7b\"tanklevels\":\x7b\"top\":\"42\"\x7d\x7d".toList)
      = process_json_ allSinks Component.fresh "\x7b\"tanklevels\":\x7b\"top\":\"42\"\x7d\x7d".toList
    ∧ (loop allSinks Component.fresh
        ('<' :: "2053328000".toList
          ++ "\x7b\"tanklevels\":\x7b\"top\":\"42\"\x7d\x7d".toList)).1.buffer_ = [] :=
  pending_hex_frame_discarded allSinks Component.fresh "2053328000".toList
    "\x7b\"tanklevels\":\x7b\"top\":\"42\"\x7d\x7d".toList rfl (by decide) (by decide) (by decide)
    (by decide) (only_at_end_of_bounded (by decide) (by decide)) (by decide)

end RainDirector
